import Mathlib

/-!
FCMA toolbox: precomputed-kernel SVM classification (`src_beta/SVMClassification.cpp`).

A shallow embedding of `GetSVMProblemWithPreKernel`, `GetSVMProblemWithPreKernel2`,
`DoSVM`, `GetSVMPerformance` and `GetVoxelwiseSVMPerformance`, and the properties
the specification states about them.

Conventions of the embedding.

* `float` and `double` values are exact rationals (`ℚ`): rounding is not modelled.
  The non-finite results of the one division of the code, in `DoSVM`, are kept
  apart (`Score.nan` for `0/0`, `Score.inf`).
* `int` sizes and indices are natural numbers and are taken to stay in the range
  of `int` (the buffers of the code are allocated with these very sizes).
* A buffer the code only reads (`float*`) is a function from indices to values.
* A `for (i = 0; i < n; i++)` loop is `forLoop n body`, which runs the body for
  `0, 1, …, n-1` in that order.
* A `#pragma omp parallel for` loop runs its iterations one after the other in an
  order the OpenMP runtime chooses (a `Schedule`); an iteration of these loops
  writes only cells of its own, so every interleaving of the threads amounts to
  such an order.
-/

namespace FCMA

/-! ## Data model (declarations of `common.h` and `LibSVM.h`) -/

/-- Modelled from the spec: the `CorrMatrix` record of `common.h` (not among the
sources), with the fields `SVMClassification.cpp` reads: trial label, starting
row, number of rows (`step`), row length (`nVoxels`) and the matrix data. -/
structure CorrMatrix where
  tlabel : Int
  sr : Int
  step : Nat
  nVoxels : Nat
  matrix : Nat → ℚ

/-- Modelled from the spec: the `Trial` record of `common.h` (not among the
sources); only its ground-truth `label` is read here. -/
structure Trial where
  label : Int

/-- Modelled from the spec: the `Voxel` record of `common.h` (not among the
sources): position id, row length and the contiguous buffer of the per-sample
feature vectors. -/
structure Voxel where
  vid : Int
  nVoxels : Nat
  corr_vecs : Nat → ℚ

/-- Modelled from the spec: `SVMNode` (`svm_node` of `LibSVM.h`, not among the
sources), a lookup index and a value.  A field is `none` until the code assigns
it: `new SVMNode[n]` and `kmp_malloc` leave both fields indeterminate. -/
structure SVMNode where
  index : Option Int
  value : Option ℚ
deriving DecidableEq, Repr

instance : Inhabited SVMNode := ⟨⟨none, none⟩⟩

/-- Modelled from the spec: `SVMProblem` (`svm_problem` of `LibSVM.h`, not among
the sources): sample count `l`, labels `y` (`signed char`) and the rows `x`. -/
structure SVMProblem where
  l : Nat
  y : List Int
  x : List (List SVMNode)
deriving DecidableEq, Repr

/-- Modelled from the spec: `SVMParameter` (`svm_parameter` of `LibSVM.h`, not
among the sources); the code only chooses the kernel mode. -/
structure SVMParameter where
  kernel_type : Int
deriving DecidableEq, Repr

/-- Modelled from the spec: the constant `PRECOMPUTED` of `LibSVM.h` (kernel mode
"precomputed"). -/
def PRECOMPUTED : Int := 4

/-- A float result: a finite number, the NaN of the division `0/0`, or the
infinity of the division of a positive number by zero. -/
inductive Score where
  | nan : Score
  | inf : Score
  | num (q : ℚ) : Score
deriving DecidableEq, Repr

instance : Inhabited Score := ⟨Score.num 0⟩

/-- Modelled from the spec: the `VoxelScore` record of `common.h` (not among the
sources), the ScoreRecord `{position_id, accuracy}`. -/
structure VoxelScore where
  vid : Int
  score : Score
deriving DecidableEq, Repr

instance : Inhabited VoxelScore := ⟨⟨0, default⟩⟩

/-- The kernel solver capability (`SetSVMParameter` and `LibSVM.cpp`, not among
the sources), taken as a parameter: `SetSVMParameter` builds the configuration
for a kernel mode; `svm_cross_validation_no_shuffle prob param nFolds` is the
sequence of predicted labels the solver stores in `target[0]`, `target[1]`, … -/
structure Solver where
  SetSVMParameter : Int → SVMParameter
  svm_cross_validation_no_shuffle : SVMProblem → SVMParameter → Int → List ℚ

/-! ## Control and memory primitives -/

/-- `for (i = 0; i < n; i++) body(i)`, as a state transformer. -/
def forLoop {σ : Type} (n : Nat) (body : Nat → σ → σ) (s : σ) : σ :=
  match n with
  | 0 => s
  | k + 1 => body k (forLoop k body s)

/-- The values the loop variable takes in `for (i = start; i < length; i += stride)`,
in loop order; `none` when the fuel runs out before the loop condition fails. -/
def stridedIterations (fuel length stride i : Nat) : Option (List Nat) :=
  match fuel with
  | 0 => none
  | f + 1 =>
    if i < length then (stridedIterations f length stride (i + stride)).map (fun l => i :: l)
    else some []

/-- The order in which the OpenMP runtime runs the iterations of the `k`-th
`parallel for` of a call, given the iterations in loop order. -/
abbrev Schedule := Nat → List Nat → List Nat

/-- A schedule runs each iteration of a loop exactly once. -/
def Schedule.fair (omp : Schedule) : Prop := ∀ k its, (omp k its).Perm its

/-- The schedule of a single thread: loop order. -/
def inOrder : Schedule := fun _ its => its

/-- The schedule that runs the iterations last to first. -/
def backwards : Schedule := fun _ its => its.reverse

/-- A `parallel for` whose iterations run in the order `order`. -/
def parallelFor {σ : Type} (order : List Nat) (body : Nat → σ → σ) (s : σ) : σ :=
  order.foldl (fun s i => body i s) s

/-- `new T[n]`: `n` cells with a placeholder content (indeterminate in C++). -/
def alloc (α : Type) [Inhabited α] (n : Nat) : List α := List.replicate n default

/-- A fresh `float` buffer (`new float[n]`). -/
def allocBuf : Nat → ℚ := fun _ => 0

/-- The assignment `buf[idx] = v`. -/
def bufSet (buf : Nat → ℚ) (idx : Nat) (v : ℚ) : Nat → ℚ :=
  fun k => if k = idx then v else buf k

/-- The assignment `row[pos].index = v`. -/
def setIndex (row : List SVMNode) (pos : Nat) (v : Int) : List SVMNode :=
  row.modify (fun nd => { nd with index := some v }) pos

/-- The assignment `row[pos].value = v`. -/
def setValue (row : List SVMNode) (pos : Nat) (v : ℚ) : List SVMNode :=
  row.modify (fun nd => { nd with value := some v }) pos

/-- Conversion of an `int` to `signed char` (the store into `prob->y[i]`). -/
def toSChar (v : Int) : Int := (v + 128) % 256 - 128

/-- Float division `1.0 * a / b` of two non-negative `int`s: the quotient for
`b ≠ 0`, NaN for `0/0`, infinity for `a/0` with `a > 0`. -/
def divF (a b : Nat) : Score :=
  if b = 0 then (if a = 0 then Score.nan else Score.inf)
  else Score.num ((a : ℚ) / (b : ℚ))

/-! ## `cblas_sgemm` -/

/-- The inner loop of a matrix product: `Σ_{k<K} A[ia + k] * B[ib + k]`. -/
def dotLoop (K : Nat) (A : Nat → ℚ) (ia : Nat) (B : Nat → ℚ) (ib : Nat) : ℚ :=
  forLoop K (fun k acc => acc + A (ia + k) * B (ib + k)) 0

/-- Modelled from the spec: `cblas_sgemm(CblasRowMajor, CblasNoTrans, CblasTrans,
M, N, K, alpha, A, lda, B, ldb, beta, C, ldc)` of the BLAS library (not among
the sources), the dense product of an `M×K` matrix with the transpose of an
`N×K` matrix: `C[i*ldc+j] = alpha * Σ_k A[i*lda+k] * B[j*ldb+k] + beta * C[i*ldc+j]`
for `i < M`, `j < N`. -/
def cblas_sgemm (M N K : Nat) (alpha : ℚ) (A : Nat → ℚ) (lda : Nat) (B : Nat → ℚ)
    (ldb : Nat) (beta : ℚ) (C : Nat → ℚ) (ldc : Nat) : Nat → ℚ :=
  forLoop M (fun i C1 =>
    forLoop N (fun j C2 =>
      bufSet C2 (i * ldc + j)
        (alpha * dotLoop K A (i * lda) B (j * ldb) + beta * C (i * ldc + j))) C1) C

/-! ## Problem assembly -/

/-- Lines 113–121 and 229–237: row `i` of the problem: a fresh array of
`nTrainings + 2` nodes, the leading node `(0, i+1)`, the nodes
`(j+1, simMatrix[i*nTrainings+j])`, and the index `-1` in the node after them
(`j` equals `nTrainings` when the inner loop ends). -/
def assembleRow (simMatrix : Nat → ℚ) (nTrainings i : Nat) : List SVMNode :=
  let r0 : List SVMNode := alloc SVMNode (nTrainings + 2)
  let r1 := setValue (setIndex r0 0 0) 0 (((i + 1 : Nat) : Int) : ℚ)
  let r2 := forLoop nTrainings (fun j r =>
    setValue (setIndex r (j + 1) ((j : Int) + 1)) (j + 1)
      (simMatrix (i * nTrainings + j))) r1
  setIndex r2 (nTrainings + 1) (-1)

/-- Lines 110–122 and 226–238: the loop that fills the labels and the rows of the
problem from the similarity matrix (the two functions differ in the label they
store, `c_matrices[i]->tlabel` or `trials[i].label`, and in the allocator). -/
def assembleProblem (label : Nat → Int) (simMatrix : Nat → ℚ) (nTrainings : Nat)
    (prob : SVMProblem) : SVMProblem :=
  forLoop nTrainings (fun i prob =>
    { prob with
      y := prob.y.set i (toSChar (label i)),
      x := prob.x.set i (assembleRow simMatrix nTrainings i) }) prob

/-- Lines 93–96 and 218–221: `new SVMProblem()` with `l`, `y` and `x` set. -/
def newProblem (nTrainings : Nat) : SVMProblem :=
  { l := nTrainings, y := alloc Int nTrainings, x := alloc (List SVMNode) nTrainings }

/-- Lines 99–107: the copy of the feature vectors at `startIndex` into the
contiguous `nTrainings × row` buffer `corrMatrix`. -/
def fillCorrMatrix (c_matrices : Nat → CorrMatrix) (row startIndex nTrainings : Nat) :
    Nat → ℚ :=
  forLoop nTrainings (fun i cm =>
    forLoop row (fun j cm1 =>
      bufSet cm1 (i * row + j) ((c_matrices i).matrix (startIndex + j))) cm) allocBuf

/-- `GetSVMProblemWithPreKernel` (lines 91–126). -/
def GetSVMProblemWithPreKernel (c_matrices : Nat → CorrMatrix)
    (row startIndex nTrainings : Nat) : SVMProblem :=
  let prob := newProblem nTrainings
  let simMatrix := allocBuf
  let corrMatrix := fillCorrMatrix c_matrices row startIndex nTrainings
  let simMatrix := cblas_sgemm nTrainings nTrainings row 1 corrMatrix row
    corrMatrix row 0 simMatrix nTrainings
  assembleProblem (fun i => (c_matrices i).tlabel) simMatrix nTrainings prob

/-- `GetSVMProblemWithPreKernel2` (lines 216–241). -/
def GetSVMProblemWithPreKernel2 (trials : Nat → Trial) (voxel : Voxel)
    (row nTrainings : Nat) : SVMProblem :=
  let prob := newProblem nTrainings
  let simMatrix := allocBuf
  let simMatrix := cblas_sgemm nTrainings nTrainings row 1 voxel.corr_vecs row
    voxel.corr_vecs row 0 simMatrix nTrainings
  assembleProblem (fun i => (trials i).label) simMatrix nTrainings prob

/-- The node `prob->x[i][k]`, when row `i` exists and has a position `k`. -/
def SVMProblem.node (prob : SVMProblem) (i k : Nat) : Option SVMNode :=
  (prob.x.get? i).bind (fun r => r.get? k)

/-! ## Cross-validation accuracy -/

/-- The buffer `target` after the solver call: the labels the solver stored,
over the indeterminate content `garbage` of `new double[prob->l]`. -/
def targetAfter (garbage : Nat → ℚ) (out : List ℚ) : Nat → ℚ :=
  fun i => (out.get? i).getD (garbage i)

/-- `DoSVM` (lines 133–149).  `garbage` is the indeterminate initial content of
the freshly allocated `target`. -/
def DoSVM (solver : Solver) (garbage : Nat → ℚ) (nFolds : Int) (prob : SVMProblem)
    (param : SVMParameter) : Score :=
  let target := targetAfter garbage
    (solver.svm_cross_validation_no_shuffle prob param nFolds)
  let total_correct := forLoop prob.l (fun i total_correct =>
    if target i = ((prob.y.getD i 0 : Int) : ℚ) then total_correct + 1
    else total_correct) 0
  divF total_correct prob.l

/-! ## The two entry points -/

/-- What a run does, in the order it does it: a problem is built for a position,
the solver's cross-validation is invoked (inside `DoSVM`) with a fold count on a
problem of `l` samples, a field of an output slot is assigned. -/
inductive Event where
  | problemBuilt (position : Nat) : Event
  | solverCalled (nFolds : Int) (l : Nat) : Event
  | vidStored (slot : Nat) : Event
  | scoreStored (slot : Nat) : Event
deriving DecidableEq, Repr

/-- How a call ends: the fatal error, the returned score array, or no return
(the loop of the model ran out of fuel). -/
inductive Result where
  | fatal (msg : String) : Result
  | returned (scores : List VoxelScore) : Result
  | diverged : Result
deriving DecidableEq, Repr

/-- A call's events and its end. -/
structure Outcome where
  trace : List Event
  result : Result
deriving DecidableEq, Repr

/-- Modelled from the spec: the `FATAL` of `ErrorHandling.h` (not among the
sources): the run terminates immediately with the message; nothing after it is
executed. -/
def FATAL (trace : List Event) (msg : String) : Outcome :=
  { trace := trace, result := Result.fatal msg }

/-- The state of the loop of `GetSVMPerformance`: the output array and the
events so far. -/
structure RunState where
  scores : List VoxelScore
  trace : List Event
deriving DecidableEq, Repr

/-- The assignment `(scores+slot)->vid = v`. -/
def storeVid (st : RunState) (slot : Nat) (v : Int) : RunState :=
  { scores := st.scores.modify (fun r => { r with vid := v }) slot,
    trace := st.trace ++ [Event.vidStored slot] }

/-- The assignment `(scores+slot)->score = v`. -/
def storeScore (st : RunState) (slot : Nat) (v : Score) : RunState :=
  { scores := st.scores.modify (fun r => { r with score := v }) slot,
    trace := st.trace ++ [Event.scoreStored slot] }

/-- Appends an event to the state. -/
def RunState.log (st : RunState) (e : Event) : RunState :=
  { st with trace := st.trace ++ [e] }

/-- The body of the loop of `GetSVMPerformance` (lines 34–51) for the loop
variable `i`; `heap p` is the indeterminate content of the `target` buffer that
`DoSVM` allocates for slot `p`. -/
def svmPerformanceBody (solver : Solver) (heap : Nat → Nat → ℚ)
    (c_matrices : Nat → CorrMatrix) (row : Nat) (rowBase : Int) (nTrainings : Nat)
    (nFolds : Int) (i : Nat) (st : RunState) : RunState :=
  let count := i / row
  let prob := GetSVMProblemWithPreKernel c_matrices row i nTrainings
  let st := st.log (Event.problemBuilt count)
  let param := solver.SetSVMParameter PRECOMPUTED
  let st := storeVid st count (rowBase + ((i / row : Nat) : Int))
  let st := st.log (Event.solverCalled nFolds prob.l)
  storeScore st count (DoSVM solver (heap count) nFolds prob param)

/-- `GetSVMPerformance` (lines 19–58). -/
def GetSVMPerformance (solver : Solver) (heap : Nat → Nat → ℚ) (omp : Schedule) (me : Int)
    (c_matrices : Nat → CorrMatrix) (nTrainings : Nat) (nFolds : Int) : Outcome :=
  if me = 0 then
    FATAL [] "the master node isn't supposed to do classification jobs"
  else
    let rowBase := (c_matrices 0).sr
    let row := (c_matrices 0).nVoxels
    let length := row * (c_matrices 0).step
    let scores := alloc VoxelScore (c_matrices 0).step
    match stridedIterations (length + 1) length row 0 with
    | none => { trace := [], result := Result.diverged }
    | some its =>
      let st := parallelFor (omp 0 its)
        (svmPerformanceBody solver heap c_matrices row rowBase nTrainings nFolds)
        { scores := scores, trace := [] }
      { trace := st.trace, result := Result.returned st.scores }

instance : Inhabited SVMProblem := ⟨⟨0, [], []⟩⟩

instance : Inhabited SVMParameter := ⟨⟨0⟩⟩

/-- The state of the loops of `GetVoxelwiseSVMPerformance`: the output array,
the arrays `prob` and `param`, and the events so far. -/
structure VoxelwiseState where
  run : RunState
  prob : List SVMProblem
  param : List SVMParameter

/-- The body of the first loop of `GetVoxelwiseSVMPerformance` (lines 172–173). -/
def voxelwiseBuildBody (solver : Solver) (trials : Nat → Trial) (voxels : Nat → Voxel)
    (row nTrainings : Nat) (i : Nat) (st : VoxelwiseState) : VoxelwiseState :=
  { run := st.run.log (Event.problemBuilt i),
    prob := st.prob.set i (GetSVMProblemWithPreKernel2 trials (voxels i) row nTrainings),
    param := st.param.set i (solver.SetSVMParameter PRECOMPUTED) }

/-- The body of the second loop of `GetVoxelwiseSVMPerformance` (lines 191–200). -/
def voxelwiseScoreBody (solver : Solver) (heap : Nat → Nat → ℚ) (voxels : Nat → Voxel)
    (nFolds : Int) (i : Nat) (st : VoxelwiseState) : VoxelwiseState :=
  let run := storeVid st.run i (voxels i).vid
  let prob := st.prob.getD i default
  let run := run.log (Event.solverCalled nFolds prob.l)
  let score := DoSVM solver (heap i) nFolds prob (st.param.getD i default)
  { st with run := storeScore run i score }

/-- `GetVoxelwiseSVMPerformance` (lines 151–214). -/
def GetVoxelwiseSVMPerformance (solver : Solver) (heap : Nat → Nat → ℚ) (omp : Schedule)
    (me : Int) (trials : Nat → Trial) (voxels : Nat → Voxel) (step nTrainings : Nat)
    (nFolds : Int) : Outcome :=
  if me = 0 then
    FATAL [] "the master node isn't supposed to do classification jobs"
  else
    let row := (voxels 0).nVoxels
    let st : VoxelwiseState :=
      { run := { scores := alloc VoxelScore step, trace := [] },
        prob := alloc SVMProblem step, param := alloc SVMParameter step }
    let st := parallelFor (omp 0 (List.range step))
      (voxelwiseBuildBody solver trials voxels row nTrainings) st
    let st := parallelFor (omp 1 (List.range step))
      (voxelwiseScoreBody solver heap voxels nFolds) st
    { trace := st.run.trace, result := Result.returned st.run.scores }

/-! ## Notions of the specification -/

/-- The similarity values a problem stores, row by row: the values of the nodes
`1 … l` of each of the rows `0 … l-1`. -/
def kernelMatrix (prob : SVMProblem) : List (List (Option ℚ)) :=
  (List.range prob.l).map (fun i =>
    (List.range prob.l).map (fun j => (prob.node i (j + 1)).bind (fun nd => nd.value)))

/-- The specification's row layout, for row `i` and column `j` of a problem over
the similarity matrix `S` (`S[i][j]` is `S (i * N + j)`): `N` rows of `N + 2`
entries; entry 0 is `(0, i+1)`; entry `j+1` is `(j+1, S[i][j])`; the last entry,
at position `N + 1`, has the sentinel index `-1`; no entry before it has that
index. -/
def rowLayout (prob : SVMProblem) (S : Nat → ℚ) (N i j : Nat) : Prop :=
  prob.x.length = N ∧ (∀ r, r ∈ prob.x → r.length = N + 2) ∧
  prob.node i 0 = some { index := some 0, value := some ((i : ℚ) + 1) } ∧
  prob.node i (j + 1) =
    some { index := some ((j : Int) + 1), value := some (S (i * N + j)) } ∧
  (∃ nd, prob.node i (N + 1) = some nd ∧ nd.index = some (-1)) ∧
  (∀ k nd, k ≤ N → prob.node i k = some nd → nd.index ≠ some (-1))

/-- The specification's count: the number of indices `i < N` whose predicted
label equals the true label `y[i]`. -/
def correctCount (predicted : List ℚ) (y : List Int) (N : Nat) : Nat :=
  ((Finset.range N).filter
    (fun i => predicted.getD i 0 = ((y.getD i 0 : Int) : ℚ))).card

/-- An accuracy in `[0,1]`: a number (not NaN) between 0 and 1. -/
def Score.inUnitInterval : Score → Prop
  | Score.nan => False
  | Score.inf => False
  | Score.num q => 0 ≤ q ∧ q ≤ 1

instance : DecidablePred Score.inUnitInterval := fun s =>
  match s with
  | Score.nan => isFalse (fun h => h)
  | Score.inf => isFalse (fun h => h)
  | Score.num q => inferInstanceAs (Decidable (0 ≤ q ∧ q ≤ 1))

/-! ## A concrete scenario: 4 samples, feature length 2 -/

/-- The feature vectors `(1,0), (0,1), (1,1), (0,0)` laid out one after the
other, as `corr_vecs` holds them. -/
def demoVecs : Nat → ℚ := fun k => ([1, 0, 0, 1, 1, 1, 0, 0] : List ℚ).getD k 0

/-- The labels `(+1, +1, -1, -1)`. -/
def demoLabel : Nat → Int := fun i => if i < 2 then 1 else -1

/-- The scenario as a `CorrMatrix` array: sample `i` holds its vector at offset
`startIndex = 0` of a one-row matrix. -/
def demoMatrices : Nat → CorrMatrix := fun i =>
  { tlabel := demoLabel i, sr := 10, step := 1, nVoxels := 2,
    matrix := fun k => demoVecs (i * 2 + k) }

/-- The scenario as a `Voxel`. -/
def demoVoxel : Voxel := { vid := 10, nVoxels := 2, corr_vecs := demoVecs }

/-- The scenario's trials. -/
def demoTrials : Nat → Trial := fun i => { label := demoLabel i }

/-- The pairwise dot products of `(1,0), (0,1), (1,1), (0,0)`. -/
def demoGram : List (List (Option ℚ)) :=
  [[some 1, some 0, some 1, some 0], [some 0, some 1, some 1, some 0],
   [some 1, some 1, some 2, some 0], [some 0, some 0, some 0, some 0]]

/-- The problem with no sample (`l = 0`). -/
def emptyProblem : SVMProblem := { l := 0, y := [], x := [] }

/-- A problem of four samples with the labels `(+1, +1, -1, -1)`; `DoSVM` does
not read the rows. -/
def demoProblem : SVMProblem := { l := 4, y := [1, 1, -1, -1], x := [] }

/-- A solver that predicts `+1` for every sample. -/
def demoSolver : Solver :=
  { SetSVMParameter := fun k => { kernel_type := k },
    svm_cross_validation_no_shuffle := fun prob _ _ => List.replicate prob.l 1 }

end FCMA

namespace FCMA

/-! ## Loops -/

theorem forLoop_succ {σ : Type} (n : Nat) (body : Nat → σ → σ) (s : σ) :
    forLoop (n + 1) body s = body n (forLoop n body s) := rfl

theorem forLoop_zero {σ : Type} (body : Nat → σ → σ) (s : σ) :
    forLoop 0 body s = s := rfl

/-- A loop that assigns cell `i` of a list in iteration `i`. -/
theorem forLoop_set_getElem? {α : Type} (f : Nat → α) (n : Nat) (l : List α) (k : Nat) :
    (forLoop n (fun i acc => acc.set i (f i)) l)[k]? =
      if k < n then l[k]?.map (fun _ => f k) else l[k]? := by
  induction n with
  | zero => simp [forLoop]
  | succ n ih =>
    rw [forLoop_succ, List.getElem?_set]
    by_cases h : n = k
    · subst h
      simp only [if_true, lt_add_one]
      have hlen : (forLoop n (fun i acc => acc.set i (f i)) l).length = l.length := by
        clear ih
        induction n with
        | zero => rfl
        | succ m ihm => rw [forLoop_succ, List.length_set, ihm]
      rw [hlen]
      by_cases hk : n < l.length
      · simp [hk, List.getElem?_eq_getElem hk]
      · simp [hk, List.getElem?_eq_none (Nat.le_of_not_lt hk)]
    · rw [if_neg h, ih]
      by_cases hk : k < n
      · simp [hk, Nat.lt_succ_of_lt hk]
      · have : ¬ k < n + 1 := by omega
        simp [hk, this]

/-! ## Rows of the problem -/

theorem setIndex_length (r : List SVMNode) (p : Nat) (v : Int) :
    (setIndex r p v).length = r.length := by
  simp [setIndex]

theorem setValue_length (r : List SVMNode) (p : Nat) (v : ℚ) :
    (setValue r p v).length = r.length := by
  simp [setValue]

theorem setIndex_getElem? (r : List SVMNode) (p : Nat) (v : Int) (k : Nat) :
    (setIndex r p v)[k]? =
      if p = k then r[k]?.map (fun nd => { nd with index := some v }) else r[k]? := by
  by_cases h : p = k <;> simp [setIndex, List.getElem?_modify, h]

theorem setValue_getElem? (r : List SVMNode) (p : Nat) (v : ℚ) (k : Nat) :
    (setValue r p v)[k]? =
      if p = k then r[k]?.map (fun nd => { nd with value := some v }) else r[k]? := by
  by_cases h : p = k <;> simp [setValue, List.getElem?_modify, h]

/-- The inner loop of the row assembly, position by position. -/
theorem rowLoop_getElem? (g : Nat → ℚ) (m : Nat) (r : List SVMNode) (k : Nat) :
    (forLoop m (fun j r =>
        setValue (setIndex r (j + 1) ((j : Int) + 1)) (j + 1) (g j)) r)[k]? =
      if 1 ≤ k ∧ k ≤ m then
        r[k]?.map (fun _ => ({ index := some (k : Int), value := some (g (k - 1)) } : SVMNode))
      else r[k]? := by
  induction m with
  | zero =>
    have : ¬ (1 ≤ k ∧ k ≤ 0) := by omega
    rw [if_neg this]
    rfl
  | succ m ih =>
    rw [forLoop_succ, setValue_getElem?, setIndex_getElem?, ih]
    by_cases h : m + 1 = k
    · subst h
      have h1 : ¬ (1 ≤ m + 1 ∧ m + 1 ≤ m) := by omega
      cases hr : r[m + 1]? <;> simp [h1]
    · have h2 : (1 ≤ k ∧ k ≤ m + 1) ↔ (1 ≤ k ∧ k ≤ m) := by omega
      simp [h, h2]

theorem rowLoop_length (g : Nat → ℚ) (m : Nat) (r : List SVMNode) :
    (forLoop m (fun j r =>
        setValue (setIndex r (j + 1) ((j : Int) + 1)) (j + 1) (g j)) r).length = r.length := by
  induction m with
  | zero => rfl
  | succ m ih => rw [forLoop_succ, setValue_length, setIndex_length, ih]

theorem assembleRow_length (sim : Nat → ℚ) (N i : Nat) :
    (assembleRow sim N i).length = N + 2 := by
  simp [assembleRow, setIndex_length, rowLoop_length, setValue_length, alloc]

/-- Row `i` of the problem, position by position. -/
theorem assembleRow_getElem? (sim : Nat → ℚ) (N i k : Nat) :
    (assembleRow sim N i)[k]? =
      if k = 0 then some { index := some 0, value := some (((i + 1 : Nat) : Int) : ℚ) }
      else if k ≤ N then some { index := some (k : Int), value := some (sim (i * N + (k - 1))) }
      else if k = N + 1 then some { index := some (-1), value := none }
      else none := by
  unfold assembleRow
  simp only [setIndex_getElem?, rowLoop_getElem?, setValue_getElem?, alloc]
  by_cases h0 : k = 0
  · subst h0
    simp
  · by_cases h1 : k ≤ N
    · have hk : k < N + 2 := by omega
      have h2 : 1 ≤ k ∧ k ≤ N := by omega
      have h3 : N + 1 ≠ k := by omega
      have h4 : 0 ≠ k := by omega
      simp [h0, h1, h2, h3, h4, List.getElem?_replicate, hk]
    · by_cases h2 : k = N + 1
      · subst h2
        have h3 : ¬ (N + 1 ≤ N) := by omega
        simp [h3, List.getElem?_replicate]
        rfl
      · have h3 : ¬ (1 ≤ k ∧ k ≤ N) := by omega
        have h4 : 0 ≠ k := by omega
        have h5 : N + 1 ≠ k := fun h => h2 h.symm
        have h6 : ¬ k < N + 2 := by omega
        simp [h0, h1, h2, h3, h4, h5, List.getElem?_replicate, h6]

/-- A loop that assigns every cell of a list of length `n` yields the list of
the assigned values. -/
theorem forLoop_set_eq_map {α : Type} (f : Nat → α) (n : Nat) (l : List α)
    (hl : l.length = n) :
    forLoop n (fun i acc => acc.set i (f i)) l = (List.range n).map f := by
  apply List.ext_getElem?
  intro k
  rw [forLoop_set_getElem?]
  by_cases hk : k < n
  · have hk2 : k < l.length := by omega
    simp [hk, List.getElem?_eq_getElem hk2, List.getElem?_range hk]
  · have hk2 : l.length ≤ k := by omega
    have hk3 : (List.range n).length ≤ k := by simp; omega
    simp [hk, List.getElem?_eq_none hk2, List.getElem?_eq_none hk3]

theorem svmProblem_ext (p q : SVMProblem) (hl : p.l = q.l) (hy : p.y = q.y)
    (hx : p.x = q.x) : p = q := by
  cases p
  cases q
  simp only at hl hy hx
  rw [hl, hy, hx]

theorem assembleProblem_l (label : Nat → Int) (sim : Nat → ℚ) (M N : Nat) (prob : SVMProblem) :
    (forLoop N (fun i prob =>
      ({ prob with
        y := prob.y.set i (toSChar (label i)),
        x := prob.x.set i (assembleRow sim M i) } : SVMProblem)) prob).l = prob.l := by
  induction N with
  | zero => rfl
  | succ n ih => rw [forLoop_succ]; exact ih

theorem assembleProblem_y (label : Nat → Int) (sim : Nat → ℚ) (M N : Nat) (prob : SVMProblem) :
    (forLoop N (fun i prob =>
      ({ prob with
        y := prob.y.set i (toSChar (label i)),
        x := prob.x.set i (assembleRow sim M i) } : SVMProblem)) prob).y =
      forLoop N (fun i y => y.set i (toSChar (label i))) prob.y := by
  induction N with
  | zero => rfl
  | succ n ih => rw [forLoop_succ, forLoop_succ, ← ih]

theorem assembleProblem_x (label : Nat → Int) (sim : Nat → ℚ) (M N : Nat) (prob : SVMProblem) :
    (forLoop N (fun i prob =>
      ({ prob with
        y := prob.y.set i (toSChar (label i)),
        x := prob.x.set i (assembleRow sim M i) } : SVMProblem)) prob).x =
      forLoop N (fun i x => x.set i (assembleRow sim M i)) prob.x := by
  induction N with
  | zero => rfl
  | succ n ih => rw [forLoop_succ, forLoop_succ, ← ih]

/-- The assembled problem in closed form. -/
theorem assembleProblem_newProblem (label : Nat → Int) (sim : Nat → ℚ) (N : Nat) :
    assembleProblem label sim N (newProblem N) =
      { l := N,
        y := (List.range N).map (fun i => toSChar (label i)),
        x := (List.range N).map (fun i => assembleRow sim N i) } := by
  apply svmProblem_ext
  · exact assembleProblem_l label sim N N (newProblem N)
  · have hy := assembleProblem_y label sim N N (newProblem N)
    rw [forLoop_set_eq_map _ _ _ (by simp [newProblem, alloc])] at hy
    exact hy
  · have hx := assembleProblem_x label sim N N (newProblem N)
    rw [forLoop_set_eq_map _ _ _ (by simp [newProblem, alloc])] at hx
    exact hx

/-- The rows of the assembled problem depend on the similarity matrix only through
the entries `simMatrix[i*N+j]`, `i, j < N`. -/
theorem assembleRow_congr (sim sim2 : Nat → ℚ) (N i : Nat)
    (h : ∀ j, j < N → sim (i * N + j) = sim2 (i * N + j)) :
    assembleRow sim N i = assembleRow sim2 N i := by
  apply List.ext_getElem?
  intro k
  rw [assembleRow_getElem?, assembleRow_getElem?]
  by_cases h0 : k = 0
  · simp [h0]
  · by_cases h1 : k ≤ N
    · have := h (k - 1) (by omega)
      simp [h0, h1, this]
    · simp [h0, h1]

/-! ## The similarity matrix -/

theorem dotLoop_eq_sum (K : Nat) (A : Nat → ℚ) (ia : Nat) (B : Nat → ℚ) (ib : Nat) :
    dotLoop K A ia B ib = ∑ k in Finset.range K, A (ia + k) * B (ib + k) := by
  unfold dotLoop
  induction K with
  | zero => simp [forLoop]
  | succ n ih => rw [forLoop_succ, ih, Finset.sum_range_succ]

theorem bufSet_apply (buf : Nat → ℚ) (idx : Nat) (v : ℚ) (k : Nat) :
    bufSet buf idx v k = if k = idx then v else buf k := rfl

/-- One row of the product: the cells `base + j`, `j < N`, are assigned. -/
theorem sgemmRow_apply (f : Nat → ℚ) (base N : Nat) (C : Nat → ℚ) (idx : Nat) :
    forLoop N (fun j C2 => bufSet C2 (base + j) (f j)) C idx =
      if base ≤ idx ∧ idx < base + N then f (idx - base) else C idx := by
  induction N with
  | zero =>
    have : ¬ (base ≤ idx ∧ idx < base + 0) := by omega
    rw [if_neg this]
    rfl
  | succ n ih =>
    rw [forLoop_succ, bufSet_apply]
    by_cases h : idx = base + n
    · subst h
      have : base ≤ base + n ∧ base + n < base + (n + 1) := by omega
      simp [this]
    · rw [if_neg h, ih]
      have h2 : (base ≤ idx ∧ idx < base + (n + 1)) ↔ (base ≤ idx ∧ idx < base + n) := by omega
      simp [h2]

/-- The entry `C[i*ldc+j]` after `cblas_sgemm`, for `i < M`, `j < N ≤ ldc`. -/
theorem cblas_sgemm_apply (M N K : Nat) (alpha : ℚ) (A : Nat → ℚ) (lda : Nat)
    (B : Nat → ℚ) (ldb : Nat) (beta : ℚ) (C : Nat → ℚ) (ldc : Nat)
    (hN : N ≤ ldc) (i j : Nat) (hi : i < M) (hj : j < N) :
    cblas_sgemm M N K alpha A lda B ldb beta C ldc (i * ldc + j) =
      alpha * (∑ k in Finset.range K, A (i * lda + k) * B (j * ldb + k))
        + beta * C (i * ldc + j) := by
  unfold cblas_sgemm
  induction M with
  | zero => omega
  | succ m ih =>
    rw [forLoop_succ]
    rw [sgemmRow_apply (fun j => alpha * dotLoop K A (m * lda) B (j * ldb)
      + beta * C (m * ldc + j)) (m * ldc) N]
    by_cases him : i = m
    · subst him
      have : i * ldc ≤ i * ldc + j ∧ i * ldc + j < i * ldc + N := by omega
      rw [if_pos this]
      simp [dotLoop_eq_sum]
    · have hlt : i < m := by omega
      have hmul : (i + 1) * ldc ≤ m * ldc := Nat.mul_le_mul_right ldc hlt
      have : ¬ (m * ldc ≤ i * ldc + j ∧ i * ldc + j < m * ldc + N) := by
        rw [Nat.add_mul] at hmul
        omega
      rw [if_neg this]
      exact ih hlt

/-- The cell `corrMatrix[i*row+k]` holds `c_matrices[i]->matrix[startIndex+k]`. -/
theorem fillCorrMatrix_apply (c_matrices : Nat → CorrMatrix) (row startIndex N : Nat)
    (i k : Nat) (hi : i < N) (hk : k < row) :
    fillCorrMatrix c_matrices row startIndex N (i * row + k) =
      (c_matrices i).matrix (startIndex + k) := by
  unfold fillCorrMatrix
  induction N with
  | zero => omega
  | succ m ih =>
    rw [forLoop_succ]
    rw [sgemmRow_apply (fun j => (c_matrices m).matrix (startIndex + j)) (m * row) row]
    by_cases him : i = m
    · subst him
      have : i * row ≤ i * row + k ∧ i * row + k < i * row + row := by omega
      rw [if_pos this]
      simp
    · have hlt : i < m := by omega
      have hmul : (i + 1) * row ≤ m * row := Nat.mul_le_mul_right row hlt
      have : ¬ (m * row ≤ i * row + k ∧ i * row + k < m * row + row) := by
        rw [Nat.add_mul] at hmul
        omega
      rw [if_neg this]
      exact ih hlt

/-- `GetSVMProblemWithPreKernel` in closed form. -/
theorem preKernel_eq (c_matrices : Nat → CorrMatrix) (row startIndex N : Nat) :
    GetSVMProblemWithPreKernel c_matrices row startIndex N =
      { l := N,
        y := (List.range N).map (fun i => toSChar (c_matrices i).tlabel),
        x := (List.range N).map (fun i => assembleRow
          (cblas_sgemm N N row 1 (fillCorrMatrix c_matrices row startIndex N) row
            (fillCorrMatrix c_matrices row startIndex N) row 0 allocBuf N) N i) } := by
  unfold GetSVMProblemWithPreKernel
  exact assembleProblem_newProblem _ _ N

/-- `GetSVMProblemWithPreKernel2` in closed form. -/
theorem preKernel2_eq (trials : Nat → Trial) (voxel : Voxel) (row N : Nat) :
    GetSVMProblemWithPreKernel2 trials voxel row N =
      { l := N,
        y := (List.range N).map (fun i => toSChar (trials i).label),
        x := (List.range N).map (fun i => assembleRow
          (cblas_sgemm N N row 1 voxel.corr_vecs row voxel.corr_vecs row 0 allocBuf N) N i) } := by
  unfold GetSVMProblemWithPreKernel2
  exact assembleProblem_newProblem _ _ N

/-- The similarity matrix of `GetSVMProblemWithPreKernel`, entry by entry. -/
theorem preKernel_sim (c_matrices : Nat → CorrMatrix) (row startIndex N i j : Nat)
    (hi : i < N) (hj : j < N) :
    cblas_sgemm N N row 1 (fillCorrMatrix c_matrices row startIndex N) row
        (fillCorrMatrix c_matrices row startIndex N) row 0 allocBuf N (i * N + j) =
      ∑ k in Finset.range row,
        (c_matrices i).matrix (startIndex + k) * (c_matrices j).matrix (startIndex + k) := by
  rw [cblas_sgemm_apply N N row 1 _ row _ row 0 allocBuf N (Nat.le_refl N) i j hi hj]
  simp only [one_mul, zero_mul, add_zero]
  apply Finset.sum_congr rfl
  intro k hk
  rw [Finset.mem_range] at hk
  rw [fillCorrMatrix_apply _ _ _ _ i k hi hk, fillCorrMatrix_apply _ _ _ _ j k hj hk]

/-- The similarity matrix of `GetSVMProblemWithPreKernel2`, entry by entry. -/
theorem preKernel2_sim (corr_vecs : Nat → ℚ) (row N i j : Nat) (hi : i < N) (hj : j < N) :
    cblas_sgemm N N row 1 corr_vecs row corr_vecs row 0 allocBuf N (i * N + j) =
      ∑ k in Finset.range row, corr_vecs (i * row + k) * corr_vecs (j * row + k) := by
  rw [cblas_sgemm_apply N N row 1 _ row _ row 0 allocBuf N (Nat.le_refl N) i j hi hj]
  simp only [one_mul, zero_mul, add_zero]

/-- A node of a problem given by its rows. -/
theorem node_of_rows (l : Nat) (y : List Int) (rowAt : Nat → List SVMNode) (N i k : Nat)
    (hi : i < N) :
    SVMProblem.node { l := l, y := y, x := (List.range N).map rowAt } i k = (rowAt i)[k]? := by
  simp [SVMProblem.node, List.getElem?_range hi]

theorem preKernel_node (c_matrices : Nat → CorrMatrix) (row startIndex N i j : Nat)
    (hi : i < N) (hj : j < N) :
    (GetSVMProblemWithPreKernel c_matrices row startIndex N).node i (j + 1) =
      some { index := some ((j : Int) + 1),
             value := some (∑ k in Finset.range row,
               (c_matrices i).matrix (startIndex + k) *
                 (c_matrices j).matrix (startIndex + k)) } := by
  rw [preKernel_eq, node_of_rows _ _ _ _ _ _ hi, assembleRow_getElem?]
  have h1 : j + 1 ≤ N := hj
  simp [h1, preKernel_sim _ _ _ _ _ _ hi hj]

theorem preKernel2_node (trials : Nat → Trial) (voxel : Voxel) (row N i j : Nat)
    (hi : i < N) (hj : j < N) :
    (GetSVMProblemWithPreKernel2 trials voxel row N).node i (j + 1) =
      some { index := some ((j : Int) + 1),
             value := some (∑ k in Finset.range row,
               voxel.corr_vecs (i * row + k) * voxel.corr_vecs (j * row + k)) } := by
  rw [preKernel2_eq, node_of_rows _ _ _ _ _ _ hi, assembleRow_getElem?]
  have h1 : j + 1 ≤ N := hj
  simp [h1, preKernel2_sim _ _ _ _ _ hi hj]

theorem preKernel_l (c_matrices : Nat → CorrMatrix) (row startIndex N : Nat) :
    (GetSVMProblemWithPreKernel c_matrices row startIndex N).l = N := by
  rw [preKernel_eq]

theorem preKernel2_l (trials : Nat → Trial) (voxel : Voxel) (row N : Nat) :
    (GetSVMProblemWithPreKernel2 trials voxel row N).l = N := by
  rw [preKernel2_eq]

/-! ## Accuracy -/

/-- A counting loop computes the number of indices that satisfy the test. -/
theorem countLoop_eq_card (p : Nat → Prop) [DecidablePred p] (n : Nat) :
    forLoop n (fun i c => if p i then c + 1 else c) 0 =
      ((Finset.range n).filter p).card := by
  induction n with
  | zero => rfl
  | succ n ih =>
    rw [forLoop_succ, ih, Finset.range_succ, Finset.filter_insert]
    by_cases h : p n
    · rw [if_pos h, if_pos h, Finset.card_insert_of_not_mem]
      simp
    · rw [if_neg h, if_neg h]

theorem targetAfter_of_lt (garbage : Nat → ℚ) (out : List ℚ) (i : Nat) (h : i < out.length) :
    targetAfter garbage out i = out.getD i 0 := by
  simp [targetAfter, List.getD, List.getElem?_eq_getElem h]

/-- `DoSVM` when the solver stores one label per sample: the count of matching
labels, divided by the sample count. -/
theorem DoSVM_eq (solver : Solver) (garbage : Nat → ℚ) (nFolds : Int) (prob : SVMProblem)
    (param : SVMParameter)
    (hlen : (solver.svm_cross_validation_no_shuffle prob param nFolds).length = prob.l) :
    DoSVM solver garbage nFolds prob param =
      divF (correctCount (solver.svm_cross_validation_no_shuffle prob param nFolds)
        prob.y prob.l) prob.l := by
  unfold DoSVM
  simp only []
  rw [countLoop_eq_card]
  unfold correctCount
  congr 2
  apply Finset.filter_congr
  intro i hi
  rw [Finset.mem_range] at hi
  rw [targetAfter_of_lt _ _ _ (by omega)]

theorem correctCount_le (predicted : List ℚ) (y : List Int) (N : Nat) :
    correctCount predicted y N ≤ N := by
  unfold correctCount
  calc _ ≤ (Finset.range N).card := Finset.card_filter_le _ _
    _ = N := Finset.card_range N

theorem correctCount_eq_iff (predicted : List ℚ) (y : List Int) (N : Nat) :
    correctCount predicted y N = N ↔
      ∀ i, i < N → predicted.getD i 0 = ((y.getD i 0 : Int) : ℚ) := by
  unfold correctCount
  conv_lhs => rhs; rw [← Finset.card_range N]
  rw [Finset.card_filter_eq_iff]
  simp

/-! ## The loops of the entry points -/

theorem parallelFor_cons {σ : Type} (i : Nat) (L : List Nat) (body : Nat → σ → σ) (s : σ) :
    parallelFor (i :: L) body s = parallelFor L body (body i s) := rfl

theorem parallelFor_nil {σ : Type} (body : Nat → σ → σ) (s : σ) :
    parallelFor [] body s = s := rfl

theorem inOrder_fair : inOrder.fair := fun _ its => List.Perm.refl its

theorem backwards_fair : backwards.fair := fun _ its => List.reverse_perm its

/-- With a positive stride the loop variable of the loop over `row * step` takes
the values `p*row, (p+1)*row, …, (step-1)*row` from `p*row` on, given fuel for
the remaining tests. -/
theorem stridedIterations_eq (row step : Nat) (hrow : 1 ≤ row) (fuel : Nat) :
    ∀ p, p ≤ step → step - p < fuel →
      stridedIterations fuel (row * step) row (p * row) =
        some ((List.range (step - p)).map (fun q => (p + q) * row)) := by
  induction fuel with
  | zero => intro p _ h; omega
  | succ f ih =>
    intro p hp hf
    unfold stridedIterations
    by_cases hlt : p < step
    · have h1 : p * row < row * step := by
        rw [Nat.mul_comm row step]
        exact Nat.mul_lt_mul_of_pos_right hlt hrow
      rw [if_pos h1]
      have h2 : p * row + row = (p + 1) * row := by rw [Nat.add_mul, Nat.one_mul]
      rw [h2, ih (p + 1) hlt (by omega)]
      have h3 : step - p = (step - (p + 1)) + 1 := by omega
      rw [h3, List.range_succ_eq_map]
      simp only [Option.map_some', List.map_cons, List.map_map, Nat.add_zero]
      congr 2
      apply List.map_congr_left
      intro q _
      simp only [Function.comp, Nat.succ_eq_add_one]
      congr 1
      omega
    · have hpe : p = step := by omega
      subst hpe
      have h1 : ¬ p * row < row * p := by rw [Nat.mul_comm]; omega
      rw [if_neg h1]
      simp

/-- The loop of `GetSVMPerformance` over a positive row length has the iterations
`0, row, …, (step-1)*row`. -/
theorem stridedIterations_perf (row step : Nat) (hrow : 1 ≤ row) :
    stridedIterations (row * step + 1) (row * step) row 0 =
      some ((List.range step).map (fun q => q * row)) := by
  have h := stridedIterations_eq row step hrow (row * step + 1) 0 (Nat.zero_le _)
    (by
      have : step ≤ row * step := Nat.le_mul_of_pos_left step hrow
      omega)
  simpa using h

/-- The enumeration of the iterations of the loop of `GetSVMPerformance` always
ends within its fuel. -/
theorem stridedIterations_returns (row step : Nat) :
    ∃ its, stridedIterations (row * step + 1) (row * step) row 0 = some its := by
  by_cases hrow : 1 ≤ row
  · exact ⟨_, stridedIterations_perf row step hrow⟩
  · have h0 : row = 0 := by omega
    subst h0
    refine ⟨[], ?_⟩
    simp [stridedIterations]

/-- A parallel loop whose iteration `i` overwrites slot `slotOf i` with the
record of that slot and appends the events of that slot. -/
theorem slotFold (body : Nat → RunState → RunState) (slotOf : Nat → Nat)
    (rec : Nat → VoxelScore) (ev : Nat → List Event) (L : List Nat) :
    (∀ i, i ∈ L → ∀ st k, (body i st).scores[k]? =
      if slotOf i = k then st.scores[k]?.map (fun _ => rec (slotOf i))
      else st.scores[k]?) →
    (∀ i, i ∈ L → ∀ st, (body i st).trace = st.trace ++ ev (slotOf i)) →
    ∀ st : RunState,
      (∀ k, (parallelFor L body st).scores[k]? =
        if k ∈ L.map slotOf then st.scores[k]?.map (fun _ => rec k) else st.scores[k]?) ∧
      (parallelFor L body st).trace = st.trace ++ (L.map slotOf).flatMap ev := by
  induction L with
  | nil =>
    intro _ _ st
    simp [parallelFor_nil]
  | cons i L ih =>
    intro hs ht st
    have ih2 := ih (fun j hj => hs j (List.mem_cons_of_mem i hj))
      (fun j hj => ht j (List.mem_cons_of_mem i hj)) (body i st)
    rw [parallelFor_cons]
    constructor
    · intro k
      rw [ih2.1 k, hs i (List.mem_cons_self i L)]
      by_cases hk : k ∈ L.map slotOf
      · have hk2 : k ∈ (i :: L).map slotOf := by
          rw [List.map_cons]
          exact List.mem_cons_of_mem _ hk
        rw [if_pos hk, if_pos hk2]
        by_cases hi : slotOf i = k
        · rw [if_pos hi]
          cases st.scores[k]? <;> rfl
        · rw [if_neg hi]
      · rw [if_neg hk]
        by_cases hi : slotOf i = k
        · have hk2 : k ∈ (i :: L).map slotOf := by
            rw [List.map_cons, hi]
            exact List.mem_cons_self _ _
          rw [if_pos hi, if_pos hk2, hi]
        · have hk2 : ¬ k ∈ (i :: L).map slotOf := by
            rw [List.map_cons, List.mem_cons]
            intro h
            cases h with
            | inl h => exact hi h.symm
            | inr h => exact hk h
          rw [if_neg hi, if_neg hk2]
    · rw [ih2.2, ht i (List.mem_cons_self i L)]
      simp [List.flatMap_cons, List.append_assoc]

/-- The output array after a parallel slot loop that serves the slots `0 … n-1`
of a fresh array of `n` slots. -/
theorem slotFold_scores_eq (body : Nat → RunState → RunState) (slotOf : Nat → Nat)
    (rec : Nat → VoxelScore) (ev : Nat → List Event) (L : List Nat) (n : Nat)
    (hs : ∀ i, i ∈ L → ∀ st k, (body i st).scores[k]? =
      if slotOf i = k then st.scores[k]?.map (fun _ => rec (slotOf i))
      else st.scores[k]?)
    (ht : ∀ i, i ∈ L → ∀ st, (body i st).trace = st.trace ++ ev (slotOf i))
    (hperm : (L.map slotOf).Perm (List.range n)) (tr : List Event) :
    (parallelFor L body { scores := alloc VoxelScore n, trace := tr }).scores =
      (List.range n).map rec := by
  apply List.ext_getElem?
  intro k
  rw [(slotFold body slotOf rec ev L hs ht _).1 k]
  by_cases hk : k < n
  · have hmem : k ∈ L.map slotOf := hperm.mem_iff.2 (List.mem_range.2 hk)
    simp [hmem, hk, alloc, List.getElem?_replicate, List.getElem?_range hk]
  · have hmem : ¬ k ∈ L.map slotOf := fun h => hk (List.mem_range.1 (hperm.mem_iff.1 h))
    have hk3 : (List.range n).length ≤ k := by simp; omega
    simp [hmem, hk, alloc, List.getElem?_replicate, List.getElem?_eq_none hk3]

/-- A parallel loop that assigns cell `i` of a list in iteration `i`. -/
theorem setFold_getElem? {α : Type} (f : Nat → α) (L : List Nat) :
    ∀ (l : List α) (k : Nat),
      (L.foldl (fun acc i => acc.set i (f i)) l)[k]? =
        if k ∈ L then l[k]?.map (fun _ => f k) else l[k]? := by
  induction L with
  | nil => intro l k; simp
  | cons i L ih =>
    intro l k
    rw [List.foldl_cons, ih, List.getElem?_set]
    by_cases hi : i = k
    · subst hi
      by_cases hlen : i < l.length
      · by_cases hk : i ∈ L <;> simp [hk, hlen, List.getElem?_eq_getElem hlen]
      · by_cases hk : i ∈ L <;>
          simp [hk, hlen, List.getElem?_eq_none (Nat.le_of_not_lt hlen)]
    · have hne : k ≠ i := fun h => hi h.symm
      by_cases hk : k ∈ L <;> simp [hk, hi, hne]

/-- A parallel loop that assigns every cell of a list of length `n` yields the
list of the assigned values. -/
theorem setFold_eq_map {α : Type} (f : Nat → α) (L : List Nat) (n : Nat) (l : List α)
    (hl : l.length = n) (hperm : L.Perm (List.range n)) :
    L.foldl (fun acc i => acc.set i (f i)) l = (List.range n).map f := by
  apply List.ext_getElem?
  intro k
  rw [setFold_getElem?]
  by_cases hk : k < n
  · have hmem : k ∈ L := hperm.mem_iff.2 (List.mem_range.2 hk)
    have hk2 : k < l.length := by omega
    simp [hmem, List.getElem?_eq_getElem hk2, List.getElem?_range hk]
  · have hmem : ¬ k ∈ L := fun h => hk (List.mem_range.1 (hperm.mem_iff.1 h))
    have hk2 : l.length ≤ k := by omega
    have hk3 : (List.range n).length ≤ k := by simp; omega
    simp [hmem, List.getElem?_eq_none hk2, List.getElem?_eq_none hk3]

/-- Counting an event that iteration `p`, and only it, emits once. -/
theorem count_flatMap_range (e : Event) (ev : Nat → List Event) (p n : Nat)
    (h : ∀ q, (ev q).count e = if q = p then 1 else 0) :
    ((List.range n).flatMap ev).count e = if p < n then 1 else 0 := by
  induction n with
  | zero => simp
  | succ n ih =>
    rw [List.range_succ, List.flatMap_append, List.count_append, ih]
    simp only [List.flatMap_cons, List.flatMap_nil, List.append_nil, h]
    by_cases h1 : p < n
    · have h2 : n ≠ p := by omega
      have h3 : p < n + 1 := by omega
      simp [h1, h2, h3]
    · by_cases h2 : n = p
      · subst h2
        simp
      · have h3 : ¬ p < n + 1 := by omega
        simp [h1, h2, h3]

/-- Counting an event that every iteration emits once. -/
theorem count_flatMap_range_each (e : Event) (ev : Nat → List Event) (n : Nat)
    (h : ∀ q, (ev q).count e = 1) :
    ((List.range n).flatMap ev).count e = n := by
  induction n with
  | zero => simp
  | succ n ih =>
    rw [List.range_succ, List.flatMap_append, List.count_append, ih]
    simp [h]

theorem count_problemBuilt_map (e : Event) (he : ∀ q, Event.problemBuilt q ≠ e)
    (M : List Nat) : (M.map Event.problemBuilt).count e = 0 := by
  rw [List.count_eq_zero]
  intro hmem
  rw [List.mem_map] at hmem
  obtain ⟨q, _, hq⟩ := hmem
  exact he q hq

theorem storeVid_scores (st : RunState) (slot : Nat) (v : Int) (k : Nat) :
    (storeVid st slot v).scores[k]? =
      if slot = k then st.scores[k]?.map (fun r => { r with vid := v }) else st.scores[k]? := by
  by_cases h : slot = k <;> simp [storeVid, List.getElem?_modify, h]

theorem storeScore_scores (st : RunState) (slot : Nat) (v : Score) (k : Nat) :
    (storeScore st slot v).scores[k]? =
      if slot = k then st.scores[k]?.map (fun r => { r with score := v })
      else st.scores[k]? := by
  by_cases h : slot = k <;> simp [storeScore, List.getElem?_modify, h]

/-- The two assignments to the fields of slot `slot`, with events in between. -/
theorem store_both_scores (st : RunState) (slot : Nat) (v : Int) (sc : Score) (e : Event)
    (k : Nat) :
    (storeScore ((storeVid st slot v).log e) slot sc).scores[k]? =
      if slot = k then st.scores[k]?.map (fun _ => ({ vid := v, score := sc } : VoxelScore))
      else st.scores[k]? := by
  rw [storeScore_scores]
  have : ((storeVid st slot v).log e).scores = (storeVid st slot v).scores := rfl
  rw [this, storeVid_scores]
  by_cases h : slot = k
  · cases hk : st.scores[k]? <;> simp [h]
  · simp [h]

theorem store_both_trace (st : RunState) (slot : Nat) (v : Int) (sc : Score) (e : Event) :
    (storeScore ((storeVid st slot v).log e) slot sc).trace =
      st.trace ++ [Event.vidStored slot, e, Event.scoreStored slot] := by
  simp [storeScore, storeVid, RunState.log]

theorem runState_ext (a b : RunState) (hs : a.scores = b.scores)
    (ht : a.trace = b.trace) : a = b := by
  cases a
  cases b
  simp only at hs ht
  rw [hs, ht]

theorem getD_map_range {α : Type} (f : Nat → α) (n q : Nat) (d : α) (hq : q < n) :
    ((List.range n).map f).getD q d = f q := by
  simp [List.getD, List.getElem?_range hq]

/-! ## `GetSVMPerformance` -/

theorem svmPerformanceBody_scores (solver : Solver) (heap : Nat → Nat → ℚ)
    (c_matrices : Nat → CorrMatrix) (row : Nat) (hrow : 1 ≤ row) (rowBase : Int)
    (nTrainings : Nat) (nFolds : Int) (q : Nat) (st : RunState) (k : Nat) :
    (svmPerformanceBody solver heap c_matrices row rowBase nTrainings nFolds
        (q * row) st).scores[k]? =
      if q = k then st.scores[k]?.map (fun _ =>
        ({ vid := rowBase + (q : Int),
           score := DoSVM solver (heap q) nFolds
             (GetSVMProblemWithPreKernel c_matrices row (q * row) nTrainings)
             (solver.SetSVMParameter PRECOMPUTED) } : VoxelScore))
      else st.scores[k]? := by
  unfold svmPerformanceBody
  simp only [Nat.mul_div_cancel q hrow]
  rw [store_both_scores]
  rfl

theorem svmPerformanceBody_trace (solver : Solver) (heap : Nat → Nat → ℚ)
    (c_matrices : Nat → CorrMatrix) (row : Nat) (hrow : 1 ≤ row) (rowBase : Int)
    (nTrainings : Nat) (nFolds : Int) (q : Nat) (st : RunState) :
    (svmPerformanceBody solver heap c_matrices row rowBase nTrainings nFolds
        (q * row) st).trace =
      st.trace ++ [Event.problemBuilt q, Event.vidStored q,
        Event.solverCalled nFolds nTrainings, Event.scoreStored q] := by
  unfold svmPerformanceBody
  simp only [Nat.mul_div_cancel q hrow]
  rw [store_both_trace, preKernel_l]
  simp [RunState.log]

/-- A worker call of `GetSVMPerformance` with a positive row length, in closed
form: the returned array, and the events, which come slot by slot in the order
`M` in which the schedule serves the slots. -/
theorem GetSVMPerformance_worker (solver : Solver) (heap : Nat → Nat → ℚ) (omp : Schedule)
    (me : Int) (c_matrices : Nat → CorrMatrix) (nTrainings : Nat) (nFolds : Int)
    (hfair : omp.fair) (hme : me ≠ 0) (hrow : 1 ≤ (c_matrices 0).nVoxels) :
    ∃ M : List Nat, M.Perm (List.range (c_matrices 0).step) ∧
      GetSVMPerformance solver heap omp me c_matrices nTrainings nFolds =
        { trace := M.flatMap (fun p =>
            [Event.problemBuilt p, Event.vidStored p,
              Event.solverCalled nFolds nTrainings, Event.scoreStored p]),
          result := Result.returned ((List.range (c_matrices 0).step).map (fun (p : Nat) =>
            ({ vid := (c_matrices 0).sr + (p : Int),
               score := DoSVM solver (heap p) nFolds
                 (GetSVMProblemWithPreKernel c_matrices (c_matrices 0).nVoxels
                   (p * (c_matrices 0).nVoxels) nTrainings)
                 (solver.SetSVMParameter PRECOMPUTED) } : VoxelScore))) } := by
  unfold GetSVMPerformance
  rw [if_neg hme]
  simp only []
  rw [stridedIterations_perf _ _ hrow]
  simp only []
  generalize hL : omp 0 ((List.range (c_matrices 0).step).map
    (fun q => q * (c_matrices 0).nVoxels)) = L
  have hLperm : L.Perm ((List.range (c_matrices 0).step).map
      (fun q => q * (c_matrices 0).nVoxels)) := by
    rw [← hL]
    exact hfair 0 _
  have hmul : ∀ i, i ∈ L → i / (c_matrices 0).nVoxels * (c_matrices 0).nVoxels = i := by
    intro i hi
    have := hLperm.mem_iff.1 hi
    rw [List.mem_map] at this
    obtain ⟨q, _, rfl⟩ := this
    rw [Nat.mul_div_cancel q hrow]
  have hM : (L.map (fun i => i / (c_matrices 0).nVoxels)).Perm
      (List.range (c_matrices 0).step) := by
    have h1 := hLperm.map (fun i => i / (c_matrices 0).nVoxels)
    rw [List.map_map] at h1
    have h2 : (List.range (c_matrices 0).step).map
        ((fun i => i / (c_matrices 0).nVoxels) ∘ (fun q => q * (c_matrices 0).nVoxels)) =
        List.range (c_matrices 0).step := by
      conv_rhs => rw [← List.map_id (List.range (c_matrices 0).step)]
      apply List.map_congr_left
      intro q _
      simp [Function.comp, Nat.mul_div_cancel q hrow]
    rw [h2] at h1
    exact h1
  refine ⟨L.map (fun i => i / (c_matrices 0).nVoxels), hM, ?_⟩
  have hs : ∀ i, i ∈ L → ∀ (st : RunState) (k : Nat),
      (svmPerformanceBody solver heap c_matrices (c_matrices 0).nVoxels (c_matrices 0).sr
        nTrainings nFolds i st).scores[k]? =
      if i / (c_matrices 0).nVoxels = k then st.scores[k]?.map (fun _ =>
        ({ vid := (c_matrices 0).sr + ((i / (c_matrices 0).nVoxels : Nat) : Int),
           score := DoSVM solver (heap (i / (c_matrices 0).nVoxels)) nFolds
             (GetSVMProblemWithPreKernel c_matrices (c_matrices 0).nVoxels
               (i / (c_matrices 0).nVoxels * (c_matrices 0).nVoxels) nTrainings)
             (solver.SetSVMParameter PRECOMPUTED) } : VoxelScore))
      else st.scores[k]? := by
    intro i hi st k
    have h := svmPerformanceBody_scores solver heap c_matrices (c_matrices 0).nVoxels hrow
      (c_matrices 0).sr nTrainings nFolds (i / (c_matrices 0).nVoxels) st k
    rw [hmul i hi] at h
    rw [h, hmul i hi]
  have ht : ∀ i, i ∈ L → ∀ (st : RunState),
      (svmPerformanceBody solver heap c_matrices (c_matrices 0).nVoxels (c_matrices 0).sr
        nTrainings nFolds i st).trace =
      st.trace ++ [Event.problemBuilt (i / (c_matrices 0).nVoxels),
        Event.vidStored (i / (c_matrices 0).nVoxels),
        Event.solverCalled nFolds nTrainings,
        Event.scoreStored (i / (c_matrices 0).nVoxels)] := by
    intro i hi st
    have h := svmPerformanceBody_trace solver heap c_matrices (c_matrices 0).nVoxels hrow
      (c_matrices 0).sr nTrainings nFolds (i / (c_matrices 0).nVoxels) st
    rw [hmul i hi] at h
    exact h
  rw [slotFold_scores_eq _ (fun i => i / (c_matrices 0).nVoxels)
    (fun (p : Nat) => (⟨(c_matrices 0).sr + (p : Int),
      DoSVM solver (heap p) nFolds
        (GetSVMProblemWithPreKernel c_matrices (c_matrices 0).nVoxels
          (p * (c_matrices 0).nVoxels) nTrainings)
        (solver.SetSVMParameter PRECOMPUTED)⟩ : VoxelScore))
    (fun p => [Event.problemBuilt p, Event.vidStored p,
      Event.solverCalled nFolds nTrainings, Event.scoreStored p]) L _ hs ht hM,
    (slotFold _ (fun i => i / (c_matrices 0).nVoxels)
    (fun (p : Nat) => (⟨(c_matrices 0).sr + (p : Int),
      DoSVM solver (heap p) nFolds
        (GetSVMProblemWithPreKernel c_matrices (c_matrices 0).nVoxels
          (p * (c_matrices 0).nVoxels) nTrainings)
        (solver.SetSVMParameter PRECOMPUTED)⟩ : VoxelScore))
    (fun p => [Event.problemBuilt p, Event.vidStored p,
      Event.solverCalled nFolds nTrainings, Event.scoreStored p]) L hs ht _).2]
  simp

/-! ## `GetVoxelwiseSVMPerformance` -/

/-- The first loop: the problems and parameters are stored, one event each. -/
theorem voxelwiseBuild_fold (solver : Solver) (trials : Nat → Trial) (voxels : Nat → Voxel)
    (row nTrainings : Nat) (L : List Nat) :
    ∀ st : VoxelwiseState,
      (parallelFor L (voxelwiseBuildBody solver trials voxels row nTrainings) st).run.scores =
        st.run.scores ∧
      (parallelFor L (voxelwiseBuildBody solver trials voxels row nTrainings) st).run.trace =
        st.run.trace ++ L.map Event.problemBuilt ∧
      (parallelFor L (voxelwiseBuildBody solver trials voxels row nTrainings) st).prob =
        L.foldl (fun acc i => acc.set i
          (GetSVMProblemWithPreKernel2 trials (voxels i) row nTrainings)) st.prob ∧
      (parallelFor L (voxelwiseBuildBody solver trials voxels row nTrainings) st).param =
        L.foldl (fun acc i => acc.set i (solver.SetSVMParameter PRECOMPUTED)) st.param := by
  induction L with
  | nil => intro st; simp [parallelFor_nil]
  | cons i L ih =>
    intro st
    obtain ⟨h1, h2, h3, h4⟩ := ih (voxelwiseBuildBody solver trials voxels row nTrainings i st)
    rw [parallelFor_cons]
    refine ⟨?_, ?_, ?_, ?_⟩
    · rw [h1]; rfl
    · rw [h2]
      simp [voxelwiseBuildBody, RunState.log]
    · rw [h3]; rfl
    · rw [h4]; rfl

/-- The second loop leaves `prob` and `param` alone and is a slot loop on the
output array. -/
theorem voxelwiseScore_fold (solver : Solver) (heap : Nat → Nat → ℚ) (voxels : Nat → Voxel)
    (nFolds : Int) (L : List Nat) :
    ∀ st : VoxelwiseState,
      (parallelFor L (voxelwiseScoreBody solver heap voxels nFolds) st).prob = st.prob ∧
      (parallelFor L (voxelwiseScoreBody solver heap voxels nFolds) st).param = st.param ∧
      (parallelFor L (voxelwiseScoreBody solver heap voxels nFolds) st).run =
        parallelFor L (fun q run =>
          storeScore ((storeVid run q (voxels q).vid).log
            (Event.solverCalled nFolds (st.prob.getD q default).l)) q
            (DoSVM solver (heap q) nFolds (st.prob.getD q default)
              (st.param.getD q default))) st.run := by
  induction L with
  | nil => intro st; simp [parallelFor_nil]
  | cons i L ih =>
    intro st
    obtain ⟨h1, h2, h3⟩ := ih (voxelwiseScoreBody solver heap voxels nFolds i st)
    rw [parallelFor_cons, parallelFor_cons]
    refine ⟨?_, ?_, ?_⟩
    · rw [h1]; rfl
    · rw [h2]; rfl
    · rw [h3]; rfl

/-- A worker call of `GetVoxelwiseSVMPerformance`, in closed form: the returned
array, and the events, in the orders `M1` and `M2` in which the schedule runs
the two loops. -/
theorem GetVoxelwiseSVMPerformance_worker (solver : Solver) (heap : Nat → Nat → ℚ)
    (omp : Schedule) (me : Int) (trials : Nat → Trial) (voxels : Nat → Voxel)
    (step nTrainings : Nat) (nFolds : Int) (hfair : omp.fair) (hme : me ≠ 0) :
    ∃ M1 M2 : List Nat, M1.Perm (List.range step) ∧ M2.Perm (List.range step) ∧
      GetVoxelwiseSVMPerformance solver heap omp me trials voxels step nTrainings nFolds =
        { trace := M1.map Event.problemBuilt ++
            M2.flatMap (fun p =>
              [Event.vidStored p, Event.solverCalled nFolds nTrainings, Event.scoreStored p]),
          result := Result.returned ((List.range step).map (fun p =>
            ({ vid := (voxels p).vid,
               score := DoSVM solver (heap p) nFolds
                 (GetSVMProblemWithPreKernel2 trials (voxels p) (voxels 0).nVoxels nTrainings)
                 (solver.SetSVMParameter PRECOMPUTED) } : VoxelScore))) } := by
  refine ⟨omp 0 (List.range step), omp 1 (List.range step), hfair 0 _, hfair 1 _, ?_⟩
  have hM2 := hfair 1 (List.range step)
  unfold GetVoxelwiseSVMPerformance
  rw [if_neg hme]
  simp only []
  generalize hst0 : (⟨⟨alloc VoxelScore step, []⟩, alloc SVMProblem step,
    alloc SVMParameter step⟩ : VoxelwiseState) = st0
  obtain ⟨b1, b2, b3, b4⟩ := voxelwiseBuild_fold solver trials voxels (voxels 0).nVoxels
    nTrainings (omp 0 (List.range step)) st0
  generalize parallelFor (omp 0 (List.range step))
    (voxelwiseBuildBody solver trials voxels (voxels 0).nVoxels nTrainings) st0 = st1
    at b1 b2 b3 b4
  obtain ⟨_, _, s3⟩ := voxelwiseScore_fold solver heap voxels nFolds
    (omp 1 (List.range step)) st1
  rw [s3]
  subst hst0
  simp only [List.nil_append] at b1 b2 b3 b4
  rw [setFold_eq_map _ _ step _ (by simp [alloc]) (hfair 0 _)] at b3 b4
  have hrun : st1.run = ⟨alloc VoxelScore step,
      (omp 0 (List.range step)).map Event.problemBuilt⟩ :=
    runState_ext _ _ b1 b2
  rw [hrun, b3, b4]
  generalize omp 1 (List.range step) = L at hM2
  have hlt : ∀ q, q ∈ L → q < step := fun q hq => List.mem_range.1 (hM2.mem_iff.1 hq)
  have hs : ∀ q, q ∈ L → ∀ (st : RunState) (k : Nat),
      (storeScore ((storeVid st q (voxels q).vid).log
        (Event.solverCalled nFolds (((List.range step).map (fun i =>
          GetSVMProblemWithPreKernel2 trials (voxels i) (voxels 0).nVoxels nTrainings)).getD q
            default).l)) q
        (DoSVM solver (heap q) nFolds
          (((List.range step).map (fun i =>
            GetSVMProblemWithPreKernel2 trials (voxels i) (voxels 0).nVoxels
              nTrainings)).getD q default)
          (((List.range step).map (fun _ =>
            solver.SetSVMParameter PRECOMPUTED)).getD q default))).scores[k]? =
      if id q = k then st.scores[k]?.map (fun _ =>
        (⟨(voxels (id q)).vid, DoSVM solver (heap (id q)) nFolds
          (GetSVMProblemWithPreKernel2 trials (voxels (id q)) (voxels 0).nVoxels nTrainings)
          (solver.SetSVMParameter PRECOMPUTED)⟩ : VoxelScore))
      else st.scores[k]? := by
    intro q hq st k
    rw [store_both_scores, getD_map_range _ _ _ _ (hlt q hq),
      getD_map_range _ _ _ _ (hlt q hq)]
    rfl
  have ht : ∀ q, q ∈ L → ∀ (st : RunState),
      (storeScore ((storeVid st q (voxels q).vid).log
        (Event.solverCalled nFolds (((List.range step).map (fun i =>
          GetSVMProblemWithPreKernel2 trials (voxels i) (voxels 0).nVoxels nTrainings)).getD q
            default).l)) q
        (DoSVM solver (heap q) nFolds
          (((List.range step).map (fun i =>
            GetSVMProblemWithPreKernel2 trials (voxels i) (voxels 0).nVoxels
              nTrainings)).getD q default)
          (((List.range step).map (fun _ =>
            solver.SetSVMParameter PRECOMPUTED)).getD q default))).trace =
      st.trace ++ [Event.vidStored (id q), Event.solverCalled nFolds nTrainings,
        Event.scoreStored (id q)] := by
    intro q hq st
    rw [store_both_trace, getD_map_range _ _ _ _ (hlt q hq), preKernel2_l]
    rfl
  have hM2id : (L.map id).Perm (List.range step) := by
    rw [List.map_id]
    exact hM2
  rw [slotFold_scores_eq _ id
    (fun (p : Nat) => (⟨(voxels p).vid, DoSVM solver (heap p) nFolds
      (GetSVMProblemWithPreKernel2 trials (voxels p) (voxels 0).nVoxels nTrainings)
      (solver.SetSVMParameter PRECOMPUTED)⟩ : VoxelScore))
    (fun p => [Event.vidStored p, Event.solverCalled nFolds nTrainings,
      Event.scoreStored p]) L _ hs ht hM2id,
    (slotFold _ id
    (fun (p : Nat) => (⟨(voxels p).vid, DoSVM solver (heap p) nFolds
      (GetSVMProblemWithPreKernel2 trials (voxels p) (voxels 0).nVoxels nTrainings)
      (solver.SetSVMParameter PRECOMPUTED)⟩ : VoxelScore))
    (fun p => [Event.vidStored p, Event.solverCalled nFolds nTrainings,
      Event.scoreStored p]) L hs ht _).2]
  simp

/-! ## The claims of the specification -/

/-- C1: the kernel value stored for row `i`, column `j` (node `j+1` of row `i`)
is the inner product of feature vectors `i` and `j`, for
`GetSVMProblemWithPreKernel` (vectors at `startIndex` of the matrices) and for
`GetSVMProblemWithPreKernel2` (rows of `corr_vecs`); for the vectors
`(1,0), (0,1), (1,1), (0,0)` the stored matrix is
`[[1,0,1,0],[0,1,1,0],[1,1,2,0],[0,0,0,0]]`. -/
theorem kernel_value_is_inner_product :
    (∀ (c_matrices : Nat → CorrMatrix) (trials : Nat → Trial) (voxel : Voxel)
        (R startIndex N i j : Nat), i < N → j < N →
      (GetSVMProblemWithPreKernel c_matrices R startIndex N).node i (j + 1) =
          some { index := some ((j : Int) + 1),
                 value := some (∑ k in Finset.range R,
                   (c_matrices i).matrix (startIndex + k) *
                     (c_matrices j).matrix (startIndex + k)) } ∧
        (GetSVMProblemWithPreKernel2 trials voxel R N).node i (j + 1) =
          some { index := some ((j : Int) + 1),
                 value := some (∑ k in Finset.range R,
                   voxel.corr_vecs (i * R + k) * voxel.corr_vecs (j * R + k)) }) ∧
      kernelMatrix (GetSVMProblemWithPreKernel demoMatrices 2 0 4) = demoGram ∧
      kernelMatrix (GetSVMProblemWithPreKernel2 demoTrials demoVoxel 2 4) = demoGram := by
  refine ⟨fun c_matrices trials voxel R startIndex N i j hi hj =>
    ⟨preKernel_node c_matrices R startIndex N i j hi hj,
      preKernel2_node trials voxel R N i j hi hj⟩, ?_, ?_⟩
  · simp [kernelMatrix, preKernel_l, List.range_succ, preKernel_node, Finset.sum_range_succ,
      demoMatrices, demoVecs, demoGram]
    norm_num
  · simp [kernelMatrix, preKernel2_l, List.range_succ, preKernel2_node, Finset.sum_range_succ,
      demoVoxel, demoVecs, demoGram]
    norm_num

/-- C1 at the scenario: row 2, column 2 of the four vectors. -/
theorem kernel_value_is_inner_product_witness :
    (2 < 4 ∧ 2 < 4) ∧
      (GetSVMProblemWithPreKernel demoMatrices 2 0 4).node 2 (2 + 1) =
          some { index := some (((2 : Nat) : Int) + 1),
                 value := some (∑ k in Finset.range 2,
                   (demoMatrices 2).matrix (0 + k) * (demoMatrices 2).matrix (0 + k)) } ∧
        (GetSVMProblemWithPreKernel2 demoTrials demoVoxel 2 4).node 2 (2 + 1) =
          some { index := some (((2 : Nat) : Int) + 1),
                 value := some (∑ k in Finset.range 2,
                   demoVoxel.corr_vecs (2 * 2 + k) * demoVoxel.corr_vecs (2 * 2 + k)) } :=
  ⟨by decide, kernel_value_is_inner_product.1 demoMatrices demoTrials demoVoxel 2 0 4 2 2
    (by decide) (by decide)⟩

theorem rowLayout_of_rows (l : Nat) (y : List Int) (S : Nat → ℚ) (N i j : Nat)
    (hi : i < N) (hj : j < N) :
    rowLayout { l := l, y := y, x := (List.range N).map (fun i => assembleRow S N i) }
      S N i j := by
  refine ⟨by simp, ?_, ?_, ?_, ?_, ?_⟩
  · intro r hr
    simp only [List.mem_map] at hr
    obtain ⟨a, _, rfl⟩ := hr
    exact assembleRow_length S N a
  · rw [node_of_rows _ _ _ _ _ _ hi, assembleRow_getElem?]
    simp
  · rw [node_of_rows _ _ _ _ _ _ hi, assembleRow_getElem?]
    have h1 : j + 1 ≤ N := hj
    simp [h1]
  · refine ⟨{ index := some (-1), value := none }, ?_, rfl⟩
    rw [node_of_rows _ _ _ _ _ _ hi, assembleRow_getElem?]
    simp
  · intro k nd hk hnd
    rw [node_of_rows _ _ _ _ _ _ hi, assembleRow_getElem?] at hnd
    by_cases h0 : k = 0
    · simp [h0] at hnd
      rw [← hnd]
      simp
    · simp [h0, hk] at hnd
      rw [← hnd]
      simp only [ne_eq, Option.some.injEq]
      omega

/-- C2: the problem assembled from any similarity matrix `S`, and so the problem
`GetSVMProblemWithPreKernel` builds from the matrix it computes, has `N` rows of
`N + 2` entries; in row `i < N` entry 0 is `(0, i+1)`, entry `j+1` is
`(j+1, S[i][j])` for `j < N`, and the last entry (position `N + 1`) has the
index `-1`, which no other entry of the row has. -/
theorem problem_row_layout (label : Nat → Int) (S : Nat → ℚ) (c_matrices : Nat → CorrMatrix)
    (R startIndex N i j : Nat) (hi : i < N) (hj : j < N) :
    rowLayout (assembleProblem label S N (newProblem N)) S N i j ∧
      rowLayout (GetSVMProblemWithPreKernel c_matrices R startIndex N)
        (cblas_sgemm N N R 1 (fillCorrMatrix c_matrices R startIndex N) R
          (fillCorrMatrix c_matrices R startIndex N) R 0 allocBuf N) N i j := by
  constructor
  · rw [assembleProblem_newProblem]
    exact rowLayout_of_rows _ _ S N i j hi hj
  · rw [preKernel_eq]
    exact rowLayout_of_rows _ _ _ N i j hi hj

/-- C2 at the scenario: row 3, column 1 of the four-sample problem. -/
theorem problem_row_layout_witness :
    (3 < 4 ∧ 1 < 4) ∧
      rowLayout (assembleProblem demoLabel demoVecs 4 (newProblem 4)) demoVecs 4 3 1 ∧
      rowLayout (GetSVMProblemWithPreKernel demoMatrices 2 0 4)
        (cblas_sgemm 4 4 2 1 (fillCorrMatrix demoMatrices 2 0 4) 2
          (fillCorrMatrix demoMatrices 2 0 4) 2 0 allocBuf 4) 4 3 1 :=
  ⟨by decide, problem_row_layout demoLabel demoVecs demoMatrices 2 0 4 3 1
    (by decide) (by decide)⟩

/-- C7: when the shared-buffer input and the per-voxel input hold the same numbers
and labels, `GetSVMProblemWithPreKernel` and `GetSVMProblemWithPreKernel2` return
the same problem: sample count, labels, and index and value of every entry of
every row. -/
theorem preKernel_variants_agree (c_matrices : Nat → CorrMatrix) (trials : Nat → Trial)
    (voxel : Voxel) (R startIndex N : Nat)
    (hvec : ∀ i k, i < N → k < R →
      voxel.corr_vecs (i * R + k) = (c_matrices i).matrix (startIndex + k))
    (hlab : ∀ i, i < N → (trials i).label = (c_matrices i).tlabel) :
    GetSVMProblemWithPreKernel c_matrices R startIndex N =
      GetSVMProblemWithPreKernel2 trials voxel R N := by
  rw [preKernel_eq, preKernel2_eq]
  apply svmProblem_ext
  · rfl
  · apply List.map_congr_left
    intro i hi
    rw [List.mem_range] at hi
    rw [hlab i hi]
  · apply List.map_congr_left
    intro i hi
    rw [List.mem_range] at hi
    apply assembleRow_congr
    intro j hj
    rw [preKernel_sim _ _ _ _ _ _ hi hj, preKernel2_sim _ _ _ _ _ hi hj]
    apply Finset.sum_congr rfl
    intro k hk
    rw [Finset.mem_range] at hk
    rw [hvec i k hi hk, hvec j k hj hk]

/-- C7 at the scenario: the four vectors as matrices and as one voxel buffer. -/
theorem preKernel_variants_agree_witness :
    GetSVMProblemWithPreKernel demoMatrices 2 0 4 =
      GetSVMProblemWithPreKernel2 demoTrials demoVoxel 2 4 :=
  preKernel_variants_agree demoMatrices demoTrials demoVoxel 2 0 4
    (fun i k _ _ => by simp [demoMatrices, demoVoxel])
    (fun i _ => rfl)

/-- C8: the similarity values stored by `GetSVMProblemWithPreKernel` and by
`GetSVMProblemWithPreKernel2` are symmetric, `S[i][j] = S[j][i]` for `i, j < N`,
and the diagonal value `S[i][i]` is the self inner product of vector `i`, which
is non-negative. -/
theorem similarity_symmetric_diag_nonneg (c_matrices : Nat → CorrMatrix)
    (trials : Nat → Trial) (voxel : Voxel) (R startIndex N i j : Nat)
    (hi : i < N) (hj : j < N) :
    ((GetSVMProblemWithPreKernel c_matrices R startIndex N).node i (j + 1)).bind
          (fun nd => nd.value) =
        ((GetSVMProblemWithPreKernel c_matrices R startIndex N).node j (i + 1)).bind
          (fun nd => nd.value) ∧
      (∃ d : ℚ, ((GetSVMProblemWithPreKernel c_matrices R startIndex N).node i (i + 1)).bind
          (fun nd => nd.value) = some d ∧
        d = ∑ k in Finset.range R,
          (c_matrices i).matrix (startIndex + k) * (c_matrices i).matrix (startIndex + k) ∧
        0 ≤ d) ∧
      ((GetSVMProblemWithPreKernel2 trials voxel R N).node i (j + 1)).bind
          (fun nd => nd.value) =
        ((GetSVMProblemWithPreKernel2 trials voxel R N).node j (i + 1)).bind
          (fun nd => nd.value) ∧
      (∃ d : ℚ, ((GetSVMProblemWithPreKernel2 trials voxel R N).node i (i + 1)).bind
          (fun nd => nd.value) = some d ∧
        d = ∑ k in Finset.range R,
          voxel.corr_vecs (i * R + k) * voxel.corr_vecs (i * R + k) ∧
        0 ≤ d) := by
  refine ⟨?_, ⟨_, ?_, rfl, ?_⟩, ?_, ⟨_, ?_, rfl, ?_⟩⟩
  · rw [preKernel_node _ _ _ _ _ _ hi hj, preKernel_node _ _ _ _ _ _ hj hi]
    simp only [Option.some_bind, Option.some.injEq]
    apply Finset.sum_congr rfl
    intro k _
    exact mul_comm _ _
  · rw [preKernel_node _ _ _ _ _ _ hi hi]
    rfl
  · exact Finset.sum_nonneg (fun k _ => mul_self_nonneg _)
  · rw [preKernel2_node _ _ _ _ _ _ hi hj, preKernel2_node _ _ _ _ _ _ hj hi]
    simp only [Option.some_bind, Option.some.injEq]
    apply Finset.sum_congr rfl
    intro k _
    exact mul_comm _ _
  · rw [preKernel2_node _ _ _ _ _ _ hi hi]
    rfl
  · exact Finset.sum_nonneg (fun k _ => mul_self_nonneg _)

/-- C8 at the scenario: rows 0 and 2 of the four vectors. -/
theorem similarity_symmetric_diag_nonneg_witness :
    (0 < 4 ∧ 2 < 4) ∧
      ((GetSVMProblemWithPreKernel demoMatrices 2 0 4).node 0 (2 + 1)).bind
          (fun nd => nd.value) =
        ((GetSVMProblemWithPreKernel demoMatrices 2 0 4).node 2 (0 + 1)).bind
          (fun nd => nd.value) :=
  ⟨by decide, (similarity_symmetric_diag_nonneg demoMatrices demoTrials demoVoxel 2 0 4 0 2
    (by decide) (by decide)).1⟩

/-- C3: for a problem of `N` samples and `N` predicted labels from the solver,
`DoSVM` returns the number of indices `i < N` whose predicted label equals
`y[i]`, divided by `N`; for `N = 4` the result is one of 0, 1/4, 1/2, 3/4, 1. -/
theorem DoSVM_accuracy (solver : Solver) (garbage : Nat → ℚ) (nFolds : Int)
    (prob : SVMProblem) (param : SVMParameter)
    (hlen : (solver.svm_cross_validation_no_shuffle prob param nFolds).length = prob.l) :
    DoSVM solver garbage nFolds prob param =
        divF (correctCount (solver.svm_cross_validation_no_shuffle prob param nFolds)
          prob.y prob.l) prob.l ∧
      (0 < prob.l → DoSVM solver garbage nFolds prob param =
        Score.num ((correctCount (solver.svm_cross_validation_no_shuffle prob param nFolds)
          prob.y prob.l : ℚ) / (prob.l : ℚ))) ∧
      (prob.l = 4 →
        DoSVM solver garbage nFolds prob param = Score.num 0 ∨
        DoSVM solver garbage nFolds prob param = Score.num (1 / 4) ∨
        DoSVM solver garbage nFolds prob param = Score.num (1 / 2) ∨
        DoSVM solver garbage nFolds prob param = Score.num (3 / 4) ∨
        DoSVM solver garbage nFolds prob param = Score.num 1) := by
  have h := DoSVM_eq solver garbage nFolds prob param hlen
  refine ⟨h, ?_, ?_⟩
  · intro hpos
    rw [h, divF, if_neg (by omega)]
  · intro h4
    rw [h, divF, if_neg (by omega)]
    have hle := correctCount_le (solver.svm_cross_validation_no_shuffle prob param nFolds)
      prob.y prob.l
    rw [h4] at hle ⊢
    generalize correctCount (solver.svm_cross_validation_no_shuffle prob param nFolds)
      prob.y 4 = c at hle
    interval_cases c <;> norm_num

/-- C3 at the scenario: four samples, every prediction `+1`. -/
theorem DoSVM_accuracy_witness :
    DoSVM demoSolver (fun _ => 0) 2 demoProblem (demoSolver.SetSVMParameter PRECOMPUTED) =
      divF (correctCount (demoSolver.svm_cross_validation_no_shuffle demoProblem
          (demoSolver.SetSVMParameter PRECOMPUTED) 2) demoProblem.y demoProblem.l)
        demoProblem.l :=
  (DoSVM_accuracy demoSolver (fun _ => 0) 2 demoProblem
    (demoSolver.SetSVMParameter PRECOMPUTED) (by decide)).1

/-- C9, as stated, fails on the problem with no sample: every one of its zero
samples is predicted correctly, and `DoSVM` returns the NaN of `0/0`, which is
neither in `[0,1]` nor equal to 1. -/
theorem DoSVM_unit_interval_counterexample :
    (demoSolver.svm_cross_validation_no_shuffle emptyProblem
        (demoSolver.SetSVMParameter PRECOMPUTED) 1).length = emptyProblem.l ∧
      (∀ i, i < emptyProblem.l →
        (demoSolver.svm_cross_validation_no_shuffle emptyProblem
          (demoSolver.SetSVMParameter PRECOMPUTED) 1).getD i 0 =
          ((emptyProblem.y.getD i 0 : Int) : ℚ)) ∧
      DoSVM demoSolver (fun _ => 0) 1 emptyProblem (demoSolver.SetSVMParameter PRECOMPUTED) =
        Score.nan ∧
      ¬ (DoSVM demoSolver (fun _ => 0) 1 emptyProblem
        (demoSolver.SetSVMParameter PRECOMPUTED)).inUnitInterval ∧
      DoSVM demoSolver (fun _ => 0) 1 emptyProblem (demoSolver.SetSVMParameter PRECOMPUTED) ≠
        Score.num 1 := by
  have h : DoSVM demoSolver (fun _ => 0) 1 emptyProblem
      (demoSolver.SetSVMParameter PRECOMPUTED) = Score.nan := rfl
  refine ⟨rfl, ?_, h, ?_, ?_⟩
  · intro i hi
    exact absurd hi (Nat.not_lt_zero i)
  · rw [h]
    exact fun hf => hf
  · rw [h]
    exact fun hf => Score.noConfusion hf

/-- C9, amended: for a problem of `N ≥ 1` samples and `N` predicted labels from
the solver, the accuracy `DoSVM` returns lies in `[0,1]`, and it is 1 if and
only if every sample's predicted label equals its ground-truth label. -/
theorem DoSVM_unit_interval (solver : Solver) (garbage : Nat → ℚ) (nFolds : Int)
    (prob : SVMProblem) (param : SVMParameter) (hN : 1 ≤ prob.l)
    (hlen : (solver.svm_cross_validation_no_shuffle prob param nFolds).length = prob.l) :
    (DoSVM solver garbage nFolds prob param).inUnitInterval ∧
      (DoSVM solver garbage nFolds prob param = Score.num 1 ↔
        ∀ i, i < prob.l →
          (solver.svm_cross_validation_no_shuffle prob param nFolds).getD i 0 =
            ((prob.y.getD i 0 : Int) : ℚ)) := by
  rw [DoSVM_eq solver garbage nFolds prob param hlen, divF, if_neg (by omega)]
  have hle := correctCount_le (solver.svm_cross_validation_no_shuffle prob param nFolds)
    prob.y prob.l
  have hpos : (0 : ℚ) < (prob.l : ℚ) := by exact_mod_cast hN
  constructor
  · constructor
    · positivity
    · rw [div_le_one hpos]
      exact_mod_cast hle
  · rw [← correctCount_eq_iff]
    constructor
    · intro h
      have h1 := Score.num.inj h
      rw [div_eq_one_iff_eq (ne_of_gt hpos)] at h1
      exact_mod_cast h1
    · intro h
      rw [h, div_self (ne_of_gt hpos)]

/-- C9 amended, at the scenario: four samples, every prediction `+1`. -/
theorem DoSVM_unit_interval_witness :
    1 ≤ demoProblem.l ∧
      (DoSVM demoSolver (fun _ => 0) 2 demoProblem
        (demoSolver.SetSVMParameter PRECOMPUTED)).inUnitInterval :=
  ⟨by decide, (DoSVM_unit_interval demoSolver (fun _ => 0) 2 demoProblem
    (demoSolver.SetSVMParameter PRECOMPUTED) (by decide) (by decide)).1⟩

/-- C10: the accuracy `DoSVM` returns depends only on the problem, the parameter
and the fold count, through the labels the solver returns for them: two calls
on the same problem, parameter and fold count return the same accuracy, whatever
the initial content of the `target` buffers and whatever else the two solvers
may differ in. -/
theorem DoSVM_deterministic (solver solver2 : Solver) (garbage garbage2 : Nat → ℚ)
    (nFolds : Int) (prob : SVMProblem) (param : SVMParameter)
    (hsame : solver.svm_cross_validation_no_shuffle prob param nFolds =
      solver2.svm_cross_validation_no_shuffle prob param nFolds)
    (hlen : (solver.svm_cross_validation_no_shuffle prob param nFolds).length = prob.l) :
    DoSVM solver garbage nFolds prob param = DoSVM solver2 garbage2 nFolds prob param := by
  rw [DoSVM_eq solver garbage nFolds prob param hlen,
    DoSVM_eq solver2 garbage2 nFolds prob param (by rw [← hsame]; exact hlen), hsame]

/-- C10 at the scenario: two runs with different leftovers in `target`. -/
theorem DoSVM_deterministic_witness :
    DoSVM demoSolver (fun _ => 0) 2 demoProblem (demoSolver.SetSVMParameter PRECOMPUTED) =
      DoSVM demoSolver (fun i => (i : ℚ) + 7) 2 demoProblem
        (demoSolver.SetSVMParameter PRECOMPUTED) :=
  DoSVM_deterministic demoSolver demoSolver (fun _ => 0) (fun i => (i : ℚ) + 7) 2 demoProblem
    (demoSolver.SetSVMParameter PRECOMPUTED) rfl (by decide)

/-- The stores of a worker call of `GetSVMPerformance`: slot `p` receives each of
its two fields once when `p < n`, never otherwise, whatever the order `M` in
which the slots are served. -/
theorem perf_trace_counts (nFolds : Int) (N n p : Nat) (M : List Nat)
    (hM : M.Perm (List.range n)) :
    (M.flatMap (fun q =>
        [Event.problemBuilt q, Event.vidStored q, Event.solverCalled nFolds N,
          Event.scoreStored q])).count (Event.vidStored p) = (if p < n then 1 else 0) ∧
      (M.flatMap (fun q =>
        [Event.problemBuilt q, Event.vidStored q, Event.solverCalled nFolds N,
          Event.scoreStored q])).count (Event.scoreStored p) = (if p < n then 1 else 0) := by
  constructor
  · rw [(List.Perm.flatMap_right _ hM).count_eq]
    apply count_flatMap_range
    intro q
    by_cases h : q = p <;> simp [List.count_cons, h]
  · rw [(List.Perm.flatMap_right _ hM).count_eq]
    apply count_flatMap_range
    intro q
    by_cases h : q = p <;> simp [List.count_cons, h]

/-- The stores of a worker call of `GetVoxelwiseSVMPerformance`. -/
theorem voxelwise_trace_counts (nFolds : Int) (N n p : Nat) (M1 M2 : List Nat)
    (hM : M2.Perm (List.range n)) :
    (M1.map Event.problemBuilt ++ M2.flatMap (fun q =>
        [Event.vidStored q, Event.solverCalled nFolds N,
          Event.scoreStored q])).count (Event.vidStored p) = (if p < n then 1 else 0) ∧
      (M1.map Event.problemBuilt ++ M2.flatMap (fun q =>
        [Event.vidStored q, Event.solverCalled nFolds N,
          Event.scoreStored q])).count (Event.scoreStored p) = (if p < n then 1 else 0) := by
  constructor
  · rw [List.count_append, count_problemBuilt_map _ (fun q h => Event.noConfusion h),
      Nat.zero_add, (List.Perm.flatMap_right _ hM).count_eq]
    apply count_flatMap_range
    intro q
    by_cases h : q = p <;> simp [List.count_cons, h]
  · rw [List.count_append, count_problemBuilt_map _ (fun q h => Event.noConfusion h),
      Nat.zero_add, (List.Perm.flatMap_right _ hM).count_eq]
    apply count_flatMap_range
    intro q
    by_cases h : q = p <;> simp [List.count_cons, h]

/-- C4: a worker call (`me ≠ 0`), under any schedule of the parallel loops that
runs each iteration once, returns an array in which every slot `p < P` was
written exactly once (each of its two fields), no other slot was written, and
slot `p` holds the record of position `p`: for `GetSVMPerformance` (row length
`R ≥ 1`, `P = step`) the id `sr + p` and the accuracy of the problem built at the
feature offset `p * R`; for `GetVoxelwiseSVMPerformance` the id `voxels[p]->vid`
and the accuracy of the problem built from `voxels[p]`. -/
theorem scores_written_once (solver : Solver) (heap : Nat → Nat → ℚ) (omp : Schedule)
    (me : Int) (c_matrices : Nat → CorrMatrix) (trials : Nat → Trial) (voxels : Nat → Voxel)
    (step nTrainings : Nat) (nFolds : Int) (hfair : omp.fair) (hme : me ≠ 0)
    (hrow : 1 ≤ (c_matrices 0).nVoxels) :
    (∃ scores trace,
      GetSVMPerformance solver heap omp me c_matrices nTrainings nFolds =
        { trace := trace, result := Result.returned scores } ∧
      scores.length = (c_matrices 0).step ∧
      (∀ p : Nat, p < (c_matrices 0).step →
        scores[p]? = some
          { vid := (c_matrices 0).sr + (p : Int),
            score := DoSVM solver (heap p) nFolds
              (GetSVMProblemWithPreKernel c_matrices (c_matrices 0).nVoxels
                (p * (c_matrices 0).nVoxels) nTrainings)
              (solver.SetSVMParameter PRECOMPUTED) } ∧
        trace.count (Event.vidStored p) = 1 ∧ trace.count (Event.scoreStored p) = 1) ∧
      (∀ q : Nat, (c_matrices 0).step ≤ q →
        trace.count (Event.vidStored q) = 0 ∧ trace.count (Event.scoreStored q) = 0)) ∧
    (∃ scores trace,
      GetVoxelwiseSVMPerformance solver heap omp me trials voxels step nTrainings nFolds =
        { trace := trace, result := Result.returned scores } ∧
      scores.length = step ∧
      (∀ p : Nat, p < step →
        scores[p]? = some
          { vid := (voxels p).vid,
            score := DoSVM solver (heap p) nFolds
              (GetSVMProblemWithPreKernel2 trials (voxels p) (voxels 0).nVoxels nTrainings)
              (solver.SetSVMParameter PRECOMPUTED) } ∧
        trace.count (Event.vidStored p) = 1 ∧ trace.count (Event.scoreStored p) = 1) ∧
      (∀ q : Nat, step ≤ q →
        trace.count (Event.vidStored q) = 0 ∧ trace.count (Event.scoreStored q) = 0)) := by
  constructor
  · obtain ⟨M, hM, hG⟩ := GetSVMPerformance_worker solver heap omp me c_matrices nTrainings
      nFolds hfair hme hrow
    refine ⟨_, _, hG, by simp, ?_, ?_⟩
    · intro p hp
      have hc := perf_trace_counts nFolds nTrainings (c_matrices 0).step p M hM
      rw [if_pos hp] at hc
      refine ⟨?_, hc.1, hc.2⟩
      simp [List.getElem?_range hp]
    · intro q hq
      have hc := perf_trace_counts nFolds nTrainings (c_matrices 0).step q M hM
      rw [if_neg (by omega)] at hc
      exact hc
  · obtain ⟨M1, M2, _, hM2, hG⟩ := GetVoxelwiseSVMPerformance_worker solver heap omp me trials
      voxels step nTrainings nFolds hfair hme
    refine ⟨_, _, hG, by simp, ?_, ?_⟩
    · intro p hp
      have hc := voxelwise_trace_counts nFolds nTrainings step p M1 M2 hM2
      rw [if_pos hp] at hc
      refine ⟨?_, hc.1, hc.2⟩
      simp [List.getElem?_range hp]
    · intro q hq
      have hc := voxelwise_trace_counts nFolds nTrainings step q M1 M2 hM2
      rw [if_neg (by omega)] at hc
      exact hc

/-- C4 at the scenario: worker 1, three voxels, the iterations run last to
first. -/
theorem scores_written_once_witness :
    (backwards.fair ∧ (1 : Int) ≠ 0 ∧ 1 ≤ (demoMatrices 0).nVoxels) ∧
    ∃ scores trace,
      GetVoxelwiseSVMPerformance demoSolver (fun _ _ => 0) backwards 1 demoTrials
          (fun _ => demoVoxel) 3 4 2 =
        { trace := trace, result := Result.returned scores } ∧
      scores.length = 3 ∧
      (∀ p : Nat, p < 3 →
        scores[p]? = some
          { vid := demoVoxel.vid,
            score := DoSVM demoSolver 0 2
              (GetSVMProblemWithPreKernel2 demoTrials demoVoxel demoVoxel.nVoxels 4)
              (demoSolver.SetSVMParameter PRECOMPUTED) } ∧
        trace.count (Event.vidStored p) = 1 ∧ trace.count (Event.scoreStored p) = 1) ∧
      (∀ q : Nat, 3 ≤ q →
        trace.count (Event.vidStored q) = 0 ∧ trace.count (Event.scoreStored q) = 0) :=
  ⟨⟨backwards_fair, by decide, by decide⟩,
    (scores_written_once demoSolver (fun _ _ => 0) backwards 1 demoMatrices demoTrials
      (fun _ => demoVoxel) 3 4 2 backwards_fair (by decide) (by decide)).2⟩

/-- C5: called with the coordinator role `me = 0`, `GetSVMPerformance` and
`GetVoxelwiseSVMPerformance` end in the fatal error with no event before it (no
problem built, no score stored); for every `me ≠ 0` the check passes and the
call returns a score array. -/
theorem coordinator_call_is_fatal (solver : Solver) (heap : Nat → Nat → ℚ) (omp : Schedule)
    (c_matrices : Nat → CorrMatrix) (trials : Nat → Trial) (voxels : Nat → Voxel)
    (step nTrainings : Nat) (nFolds : Int) :
    GetSVMPerformance solver heap omp 0 c_matrices nTrainings nFolds =
        { trace := [],
          result := Result.fatal "the master node isn't supposed to do classification jobs" } ∧
      GetVoxelwiseSVMPerformance solver heap omp 0 trials voxels step nTrainings nFolds =
        { trace := [],
          result := Result.fatal "the master node isn't supposed to do classification jobs" } ∧
      ∀ me : Int, me ≠ 0 →
        (∃ scores, (GetSVMPerformance solver heap omp me c_matrices nTrainings nFolds).result =
          Result.returned scores) ∧
        (∃ scores, (GetVoxelwiseSVMPerformance solver heap omp me trials voxels step
          nTrainings nFolds).result = Result.returned scores) := by
  refine ⟨rfl, rfl, ?_⟩
  intro me hme
  constructor
  · unfold GetSVMPerformance
    rw [if_neg hme]
    simp only []
    obtain ⟨its, hits⟩ := stridedIterations_returns (c_matrices 0).nVoxels (c_matrices 0).step
    rw [hits]
    exact ⟨_, rfl⟩
  · unfold GetVoxelwiseSVMPerformance
    rw [if_neg hme]
    exact ⟨_, rfl⟩

/-- C5 at the scenario: worker 1 is not stopped by the check. -/
theorem coordinator_call_is_fatal_witness :
    (1 : Int) ≠ 0 ∧
      ∃ scores, (GetSVMPerformance demoSolver (fun _ _ => 0) inOrder 1 demoMatrices 4
        2).result = Result.returned scores :=
  ⟨by decide, ((coordinator_call_is_fatal demoSolver (fun _ _ => 0) inOrder demoMatrices
    demoTrials (fun _ => demoVoxel) 3 4 2).2.2 1 (by decide)).1⟩

/-- C6, as stated, fails: with `nFolds = 9` folds for `nTrainings = 4` samples a
worker call of `GetSVMPerformance` is not rejected; the solver's cross-validation
is invoked with the 9 folds and the score 1/2 is returned. -/
theorem fold_count_counterexample :
    (4 : Int) < 9 ∧
      GetSVMPerformance demoSolver (fun _ _ => 0) inOrder 1 demoMatrices 4 9 =
        { trace := [Event.problemBuilt 0, Event.vidStored 0, Event.solverCalled 9 4,
            Event.scoreStored 0],
          result := Result.returned [{ vid := 10, score := Score.num (1 / 2) }] } := by
  refine ⟨by decide, ?_⟩
  obtain ⟨M, hM, hG⟩ := GetSVMPerformance_worker demoSolver (fun _ _ => 0) inOrder 1
    demoMatrices 4 9 inOrder_fair (by decide) (by decide)
  rw [hG]
  have hd : DoSVM demoSolver (fun _ => 0) 9 (GetSVMProblemWithPreKernel demoMatrices 2 0 4)
      (demoSolver.SetSVMParameter PRECOMPUTED) = Score.num (1 / 2) := by
    rw [DoSVM_eq _ _ _ _ _ (by simp [demoSolver]), preKernel_eq]
    simp [correctCount, divF, demoSolver, demoMatrices, demoLabel, toSChar,
      Finset.range_succ, Finset.filter_insert, Finset.filter_singleton, List.range_succ,
      List.getD]
    norm_num
  have h1 : (demoMatrices 0).step = 1 := rfl
  have h2 : (demoMatrices 0).nVoxels = 2 := rfl
  have h3 : (demoMatrices 0).sr = 10 := rfl
  rw [h1] at hM
  have hM0 : M = [0] := List.perm_singleton.1 hM
  rw [h1, h2, h3, hM0]
  simp only [List.range_succ, List.range_zero, List.nil_append, List.flatMap_cons,
    List.flatMap_nil, List.append_nil, List.map_cons, List.map_nil, Nat.zero_mul,
    Nat.cast_zero, add_zero]
  rw [hd]

/-- C6, amended: no entry point compares the fold count with the sample count.
For every fold count (also `nFolds > nTrainings`) a worker call of
`GetSVMPerformance` (row length at least 1) or of `GetVoxelwiseSVMPerformance`
is not rejected: it invokes the solver's cross-validation with that fold count
once per position and returns one score per position; and `DoSVM` returns the
accuracy of the labels the solver returns for that fold count. -/
theorem fold_count_not_checked (solver : Solver) (heap : Nat → Nat → ℚ) (omp : Schedule)
    (me : Int) (c_matrices : Nat → CorrMatrix) (trials : Nat → Trial) (voxels : Nat → Voxel)
    (step nTrainings : Nat) (nFolds : Int) (hfair : omp.fair) (hme : me ≠ 0)
    (hrow : 1 ≤ (c_matrices 0).nVoxels) :
    (∃ scores, (GetSVMPerformance solver heap omp me c_matrices nTrainings nFolds).result =
        Result.returned scores ∧ scores.length = (c_matrices 0).step) ∧
      (GetSVMPerformance solver heap omp me c_matrices nTrainings nFolds).trace.count
        (Event.solverCalled nFolds nTrainings) = (c_matrices 0).step ∧
      (∃ scores, (GetVoxelwiseSVMPerformance solver heap omp me trials voxels step nTrainings
        nFolds).result = Result.returned scores ∧ scores.length = step) ∧
      (GetVoxelwiseSVMPerformance solver heap omp me trials voxels step nTrainings
        nFolds).trace.count (Event.solverCalled nFolds nTrainings) = step ∧
      (∀ (garbage : Nat → ℚ) (prob : SVMProblem) (param : SVMParameter),
        (solver.svm_cross_validation_no_shuffle prob param nFolds).length = prob.l →
        DoSVM solver garbage nFolds prob param =
          divF (correctCount (solver.svm_cross_validation_no_shuffle prob param nFolds)
            prob.y prob.l) prob.l) := by
  obtain ⟨M, hM, hG⟩ := GetSVMPerformance_worker solver heap omp me c_matrices nTrainings
    nFolds hfair hme hrow
  obtain ⟨M1, M2, _, hM2, hV⟩ := GetVoxelwiseSVMPerformance_worker solver heap omp me trials
    voxels step nTrainings nFolds hfair hme
  rw [hG, hV]
  refine ⟨⟨_, rfl, by simp⟩, ?_, ⟨_, rfl, by simp⟩, ?_, ?_⟩
  · simp only []
    rw [(List.Perm.flatMap_right _ hM).count_eq]
    apply count_flatMap_range_each
    intro q
    simp [List.count_cons]
  · simp only []
    rw [List.count_append, count_problemBuilt_map _ (fun q h => Event.noConfusion h),
      Nat.zero_add, (List.Perm.flatMap_right _ hM2).count_eq]
    apply count_flatMap_range_each
    intro q
    simp [List.count_cons]
  · intro garbage prob param hlen
    exact DoSVM_eq solver garbage nFolds prob param hlen

/-- C6 amended, at the scenario: worker 1, four samples, nine folds. -/
theorem fold_count_not_checked_witness :
    (inOrder.fair ∧ (1 : Int) ≠ 0 ∧ 1 ≤ (demoMatrices 0).nVoxels ∧ (4 : Int) < 9) ∧
      (GetSVMPerformance demoSolver (fun _ _ => 0) inOrder 1 demoMatrices 4 9).trace.count
        (Event.solverCalled 9 4) = (demoMatrices 0).step :=
  ⟨⟨inOrder_fair, by decide, by decide, by decide⟩,
    (fold_count_not_checked demoSolver (fun _ _ => 0) inOrder 1 demoMatrices demoTrials
      (fun _ => demoVoxel) 3 4 9 inOrder_fair (by decide) (by decide)).2.1⟩

end FCMA
